import Mathlib

/-!
Verification of the driver route-optimization engine
(`src/server/modules/routes/service.js`, `src/server/modules/routes/utils/optimizer.js`,
`src/server/modules/routes/utils/distance-matrix.js`, and the geocoder module).

The JavaScript source is shallowly embedded:
* orders, distance entries and optimization results are structures mirroring the
  objects the code builds;
* the external Google-Maps providers (geocoding, distance matrix) are modelled as
  pure oracle functions carried in a `ProviderEnv`; each embedded operation also
  returns an `Effects` record counting provider and heuristic invocations;
* JavaScript's `Array.prototype.sort` (stable since ES2019) is modelled by a stable
  insertion sort `jsSort` parametrised by the boolean "comparator ≤ 0" relation;
* wall-clock timestamps are threaded explicitly (`now` parameters); the ISO
  timestamp string inside `formatOptimizationResult` is omitted (non-deterministic
  and not used by any property considered here);
* machine floats are modelled by `ℚ` (the heuristic scores), durations/distances by `ℕ`.
-/

namespace Grad

/-- Delivery priority enum (`LOW`, `NORMAL`, `HIGH`, `URGENT`). -/
inductive Priority where
  | LOW
  | NORMAL
  | HIGH
  | URGENT
deriving DecidableEq, Repr

/-- The numeric rank used throughout the source:
`{ 'URGENT': 4, 'HIGH': 3, 'NORMAL': 2, 'LOW': 1 }`. -/
def priorityValue : Priority → ℕ
  | .URGENT => 4
  | .HIGH => 3
  | .NORMAL => 2
  | .LOW => 1

/-- Resolved coordinates attached to an order. -/
structure Coordinates where
  latitude : ℚ
  longitude : ℚ
deriving DecidableEq, Repr

/-- A delivery order as consumed by the optimizer (identity, priority, creation
timestamp, address text, optional resolved coordinates). -/
structure Order where
  id : ℕ
  priority : Priority
  createdAt : ℕ
  deliveryAddress : String
  coordinates : Option Coordinates
deriving DecidableEq, Repr

/-! ### A model of JavaScript's stable `Array.prototype.sort`

`le a b` models "comparator(a, b) ≤ 0", i.e. `a` may stay before `b`.
Since ES2019 the sort is required to be stable, so it is modelled by a stable
insertion sort. -/

/-- Insert `a` before the first element `b` with `le a b`. -/
def jsInsert (le : α → α → Bool) (a : α) : List α → List α
  | [] => [a]
  | b :: l => if le a b then a :: b :: l else b :: jsInsert le a l

/-- Stable sort by the comparator relation `le`. -/
def jsSort (le : α → α → Bool) : List α → List α
  | [] => []
  | a :: l => jsInsert le a (jsSort le l)

theorem jsInsert_perm (le : α → α → Bool) (a : α) (l : List α) :
    List.Perm (jsInsert le a l) (a :: l) := by
  induction l with
  | nil => simp [jsInsert]
  | cons b l ih =>
    by_cases h : le a b = true
    · simp [jsInsert, h]
    · simp only [jsInsert, h]
      exact (ih.cons b).trans (List.Perm.swap a b l)

theorem jsSort_perm (le : α → α → Bool) (l : List α) :
    List.Perm (jsSort le l) l := by
  induction l with
  | nil => simp [jsSort]
  | cons a l ih =>
    exact (jsInsert_perm le a (jsSort le l)).trans (ih.cons a)

theorem jsInsert_pairwise (le : α → α → Bool)
    (htot : ∀ a b, le a b = true ∨ le b a = true)
    (htrans : ∀ a b c, le a b = true → le b c = true → le a c = true)
    (a : α) (l : List α) (h : l.Pairwise fun x y => le x y = true) :
    (jsInsert le a l).Pairwise fun x y => le x y = true := by
  induction l with
  | nil => simp [jsInsert]
  | cons b l ih =>
    rw [List.pairwise_cons] at h
    obtain ⟨hb, hl⟩ := h
    by_cases hab : le a b = true
    · simp only [jsInsert, hab, if_true]
      refine List.Pairwise.cons ?_ (List.Pairwise.cons hb hl)
      intro x hx
      rcases List.mem_cons.mp hx with hx1 | hx2
      · subst hx1; exact hab
      · exact htrans a b x hab (hb x hx2)
    · simp only [jsInsert, hab]
      rw [if_neg (by simp [hab])]
      refine List.Pairwise.cons ?_ (ih hl)
      intro x hx
      have hx' : x = a ∨ x ∈ l := by
        have hmem := (jsInsert_perm le a l).mem_iff.mp hx
        simpa using hmem
      rcases hx' with hx1 | hx2
      · subst hx1
        rcases htot x b with hc | hc
        · exact absurd hc hab
        · exact hc
      · exact hb x hx2

theorem jsSort_pairwise (le : α → α → Bool)
    (htot : ∀ a b, le a b = true ∨ le b a = true)
    (htrans : ∀ a b c, le a b = true → le b c = true → le a c = true)
    (l : List α) :
    (jsSort le l).Pairwise fun x y => le x y = true := by
  induction l with
  | nil => simp [jsSort]
  | cons a l ih => exact jsInsert_pairwise le htot htrans a (jsSort le l) ih

/-- Head of a `jsSort`-ed list is `le`-below every element of the input list. -/
theorem jsSort_head_le (le : α → α → Bool)
    (htot : ∀ a b, le a b = true ∨ le b a = true)
    (htrans : ∀ a b c, le a b = true → le b c = true → le a c = true)
    (l : List α) (h : α) (t : List α) (heq : jsSort le l = h :: t)
    (x : α) (hx : x ∈ l) : le h x = true := by
  have hmem : x ∈ jsSort le l := (jsSort_perm le l).mem_iff.mpr hx
  rw [heq] at hmem
  have hpw := jsSort_pairwise le htot htrans l
  rw [heq] at hpw
  rw [List.pairwise_cons] at hpw
  obtain ⟨hhead, -⟩ := hpw
  rcases List.mem_cons.mp hmem with hx1 | hx2
  · rw [hx1]
    rcases htot h h with hc | hc
    · exact hc
    · exact hc
  · exact hhead x hx2

/-- Stability of `jsSort`: if every two elements satisfying `p` compare `le`
(in particular, elements with equal sort keys), then the `p`-elements of the
output appear exactly as in the input. -/
theorem jsInsert_filter_neg (le : α → α → Bool) (p : α → Bool) (a : α)
    (hpa : p a = false) (l : List α) :
    (jsInsert le a l).filter p = l.filter p := by
  induction l with
  | nil => simp [jsInsert, hpa]
  | cons b l ih =>
    by_cases h : le a b = true
    · simp [jsInsert, h, hpa]
    · by_cases hb : p b = true
      · simp [jsInsert, h, hb, ih]
      · simp only [Bool.not_eq_true] at hb
        simp [jsInsert, h, hb, ih]

theorem jsInsert_filter_pos (le : α → α → Bool) (p : α → Bool)
    (hp : ∀ x y, p x = true → p y = true → le x y = true)
    (a : α) (hpa : p a = true) (l : List α) :
    (jsInsert le a l).filter p = a :: l.filter p := by
  induction l with
  | nil => simp [jsInsert, hpa]
  | cons b l ih =>
    by_cases h : le a b = true
    · simp [jsInsert, h, hpa]
    · have hb : p b = false := by
        by_contra hb
        simp only [Bool.not_eq_false] at hb
        exact h (hp a b hpa hb)
      simp [jsInsert, h, hb, ih]

theorem jsSort_filter (le : α → α → Bool) (p : α → Bool)
    (hp : ∀ x y, p x = true → p y = true → le x y = true)
    (l : List α) : (jsSort le l).filter p = l.filter p := by
  induction l with
  | nil => simp [jsSort]
  | cons a l ih =>
    by_cases hpa : p a = true
    · simp [jsSort, jsInsert_filter_pos le p hp a hpa, ih, hpa]
    · simp only [Bool.not_eq_true] at hpa
      simp [jsSort, jsInsert_filter_neg le p a hpa, ih, hpa]

/-! ### The comparators used by the source -/

/-- The "comparator ≤ 0" relation of the priority/creation-time sort used by both
`priorityBasedOptimization` (optimizer.js lines 97–102) and
`applyBasicOptimizationAlgorithm` (service.js lines 431–440):
priority rank descending, ties broken by creation time ascending. -/
def priorityTimeLe (a b : Order) : Bool :=
  if priorityValue a.priority = priorityValue b.priority then
    decide (a.createdAt ≤ b.createdAt)
  else
    decide (priorityValue b.priority < priorityValue a.priority)

theorem priorityTimeLe_iff (a b : Order) :
    priorityTimeLe a b = true ↔
      (priorityValue b.priority < priorityValue a.priority ∨
        (priorityValue a.priority = priorityValue b.priority ∧ a.createdAt ≤ b.createdAt)) := by
  unfold priorityTimeLe
  by_cases h : priorityValue a.priority = priorityValue b.priority
  · simp [h]
  · simp [h]

theorem priorityTimeLe_total (a b : Order) :
    priorityTimeLe a b = true ∨ priorityTimeLe b a = true := by
  rw [priorityTimeLe_iff, priorityTimeLe_iff]
  omega

theorem priorityTimeLe_trans (a b c : Order) (h1 : priorityTimeLe a b = true)
    (h2 : priorityTimeLe b c = true) : priorityTimeLe a c = true := by
  rw [priorityTimeLe_iff] at h1 h2 ⊢
  omega

/-- The "comparator ≤ 0" relation of the priority-descending sort used to pick the
starting order (and the fallback order) in `nearestNeighborWithPriority`
(optimizer.js line 214 and 249): `(a, b) => priorityValues[b.priority] - priorityValues[a.priority]`. -/
def priorityDescLe (a b : Order) : Bool :=
  decide (priorityValue b.priority ≤ priorityValue a.priority)

theorem priorityDescLe_total (a b : Order) :
    priorityDescLe a b = true ∨ priorityDescLe b a = true := by
  unfold priorityDescLe
  simp
  omega

theorem priorityDescLe_trans (a b c : Order) :
    priorityDescLe a b = true → priorityDescLe b c = true → priorityDescLe a c = true := by
  unfold priorityDescLe
  simp
  omega

/-- The in-place `unvisited.sort((a, b) => priorityValues[b.priority] - priorityValues[a.priority])`. -/
def sortByPriorityDesc (orders : List Order) : List Order :=
  jsSort priorityDescLe orders

/-! ### Distance entries and the priority-weighted nearest-neighbor heuristic -/

/-- One formatted entry of the distance data consumed by the heuristics
(`formatForRouteOptimization`, distance-matrix.js lines 169–194). -/
structure DistanceEntry where
  fromOrderId : ℕ
  toOrderId : ℕ
  fromAddress : String
  toAddress : String
  distanceMeters : ℕ
  durationSeconds : ℕ
  durationInTrafficSeconds : ℕ
  fromIndex : ℕ
  toIndex : ℕ
deriving DecidableEq, Repr

/-- Embeds `distances.find(d => d.fromOrderId === from && d.toOrderId === to)`. -/
def findEdge (distances : List DistanceEntry) (fromId toId : ℕ) : Option DistanceEntry :=
  distances.find? fun d => decide (d.fromOrderId = fromId) && decide (d.toOrderId = toId)

/-- Default weights destructured in `optimizeRoute` and `nearestNeighborWithPriority`
(optimizer.js lines 24–25 and 207): `priorityWeight = 0.3, distanceWeight = 0.7`. -/
def defaultPriorityWeight : ℚ := 3 / 10

def defaultDistanceWeight : ℚ := 7 / 10

/-- The weighted score of a candidate (optimizer.js lines 229–234):
`score = distanceWeight * (durationInTrafficSeconds / 3600)
       + priorityWeight * ((5 - priorityValues[candidate.priority]) / 4)`
(lower is better).  Float arithmetic is modelled exactly over `ℚ`. -/
def score (priorityWeight distanceWeight : ℚ) (e : DistanceEntry) (candidate : Order) : ℚ :=
  distanceWeight * ((e.durationInTrafficSeconds : ℚ) / 3600) +
    priorityWeight * ((5 - (priorityValue candidate.priority : ℚ)) / 4)

/-- One step of the `for (const candidate of unvisited)` search for the best-scoring
candidate (optimizer.js lines 219–241): candidates with no distance entry from the
current order are skipped; a strictly smaller score replaces the incumbent. -/
def bestStep (priorityWeight distanceWeight : ℚ) (distances : List DistanceEntry)
    (current : Order) (acc : Option (Order × ℚ)) (candidate : Order) : Option (Order × ℚ) :=
  match findEdge distances current.id candidate.id with
  | none => acc
  | some e =>
    let s := score priorityWeight distanceWeight e candidate
    match acc with
    | none => some (candidate, s)
    | some (b, bs) => if s < bs then some (candidate, s) else some (b, bs)

/-- The full candidate scan, with accumulator (`bestNext`, `bestScore`). -/
def findBestPair (priorityWeight distanceWeight : ℚ) (distances : List DistanceEntry)
    (current : Order) : List Order → Option (Order × ℚ) → Option (Order × ℚ)
  | [], acc => acc
  | c :: rest, acc =>
    findBestPair priorityWeight distanceWeight distances current rest
      (bestStep priorityWeight distanceWeight distances current acc c)

/-- The `bestNext` result after scanning all of `unvisited` starting from no incumbent. -/
def findBest (priorityWeight distanceWeight : ℚ) (distances : List DistanceEntry)
    (current : Order) (unvisited : List Order) : Option Order :=
  (findBestPair priorityWeight distanceWeight distances current unvisited none).map Prod.fst

/-- The `while (unvisited.length > 0)` loop of `nearestNeighborWithPriority`
(optimizer.js lines 219–254).  The fuel equals the initial length of `unvisited`
(the loop removes exactly one order per iteration).  When no candidate has
distance data, the source sorts `unvisited` in place by priority and takes the
head; continuing with the tail of the sorted list models the in-place mutation. -/
def nnLoop (priorityWeight distanceWeight : ℚ) (distances : List DistanceEntry) :
    ℕ → Order → List Order → List Order
  | 0, _, _ => []
  | fuel + 1, current, unvisited =>
    if unvisited.isEmpty then []
    else
      match findBest priorityWeight distanceWeight distances current unvisited with
      | some c =>
        c :: nnLoop priorityWeight distanceWeight distances fuel c (unvisited.erase c)
      | none =>
        match sortByPriorityDesc unvisited with
        | [] => []
        | h :: t => h :: nnLoop priorityWeight distanceWeight distances fuel h t

/-- Embeds `nearestNeighborWithPriority(orders, distances, options)` (optimizer.js
lines 206–257): start at the first element of `unvisited` after the in-place
priority-descending sort, then run the greedy loop on the rest. -/
def nearestNeighborWithPriority (orders : List Order) (distances : List DistanceEntry)
    (priorityWeight distanceWeight : ℚ) : List Order :=
  match sortByPriorityDesc orders with
  | [] => []
  | current :: rest =>
    current :: nnLoop priorityWeight distanceWeight distances rest.length current rest

/-- Embeds `calculateRouteDistance(route, distances)` (optimizer.js lines 465–479): sum of
`durationInTrafficSeconds` over consecutive pairs with an available entry. -/
def calculateRouteDistance : List Order → List DistanceEntry → ℕ
  | a :: b :: rest, distances =>
    (match findEdge distances a.id b.id with
     | some e => e.durationInTrafficSeconds
     | none => 0) + calculateRouteDistance (b :: rest) distances
  | _, _ => 0

/-! ### Properties of the candidate scan -/

theorem bestStep_none {pw dw : ℚ} {dists : List DistanceEntry} {current : Order}
    {acc : Option (Order × ℚ)} {c : Order}
    (h : bestStep pw dw dists current acc c = none) :
    acc = none ∧ findEdge dists current.id c.id = none := by
  unfold bestStep at h
  cases hedge : findEdge dists current.id c.id with
  | none => rw [hedge] at h; exact ⟨h, rfl⟩
  | some e =>
    rw [hedge] at h
    cases acc with
    | none => simp at h
    | some p =>
      obtain ⟨b, bs⟩ := p
      by_cases hlt : score pw dw e c < bs <;> simp [hlt] at h

theorem bestStep_sound {pw dw : ℚ} {dists : List DistanceEntry} {current : Order}
    {acc : Option (Order × ℚ)} {c b : Order} {s : ℚ}
    (h : bestStep pw dw dists current acc c = some (b, s)) :
    acc = some (b, s) ∨
      (b = c ∧ ∃ e, findEdge dists current.id c.id = some e ∧ s = score pw dw e c) := by
  unfold bestStep at h
  cases hedge : findEdge dists current.id c.id with
  | none => rw [hedge] at h; exact Or.inl h
  | some e =>
    rw [hedge] at h
    cases acc with
    | none =>
      simp only [Option.some.injEq, Prod.mk.injEq] at h
      exact Or.inr ⟨h.1.symm, e, rfl, h.2.symm⟩
    | some p =>
      obtain ⟨b0, bs0⟩ := p
      by_cases hlt : score pw dw e c < bs0
      · simp only [hlt, if_true, Option.some.injEq, Prod.mk.injEq] at h
        exact Or.inr ⟨h.1.symm, e, rfl, h.2.symm⟩
      · simp only [hlt, if_false, Option.some.injEq, Prod.mk.injEq] at h
        exact Or.inl (by rw [h.1, h.2])

theorem bestStep_acc_bound {pw dw : ℚ} {dists : List DistanceEntry} {current : Order}
    {acc : Option (Order × ℚ)} {c b : Order} {s : ℚ}
    (h : bestStep pw dw dists current acc c = some (b, s))
    (a0 : Order) (s0 : ℚ) (hacc : acc = some (a0, s0)) : s ≤ s0 := by
  subst hacc
  unfold bestStep at h
  cases hedge : findEdge dists current.id c.id with
  | none =>
    rw [hedge] at h
    simp only [Option.some.injEq, Prod.mk.injEq] at h
    exact le_of_eq h.2.symm
  | some e =>
    rw [hedge] at h
    by_cases hlt : score pw dw e c < s0
    · simp only [hlt, if_true, Option.some.injEq, Prod.mk.injEq] at h
      exact le_of_lt (h.2 ▸ hlt)
    · simp only [hlt, if_false, Option.some.injEq, Prod.mk.injEq] at h
      exact le_of_eq h.2.symm

theorem bestStep_edge_bound {pw dw : ℚ} {dists : List DistanceEntry} {current : Order}
    {acc : Option (Order × ℚ)} {c b : Order} {s : ℚ}
    (h : bestStep pw dw dists current acc c = some (b, s))
    (e : DistanceEntry) (hedge : findEdge dists current.id c.id = some e) :
    s ≤ score pw dw e c := by
  unfold bestStep at h
  rw [hedge] at h
  cases acc with
  | none =>
    simp only [Option.some.injEq, Prod.mk.injEq] at h
    exact le_of_eq h.2.symm
  | some p =>
    obtain ⟨b0, bs0⟩ := p
    by_cases hlt : score pw dw e c < bs0
    · simp only [hlt, if_true, Option.some.injEq, Prod.mk.injEq] at h
      exact le_of_eq h.2.symm
    · simp only [hlt, if_false, Option.some.injEq, Prod.mk.injEq] at h
      exact h.2 ▸ le_of_not_lt hlt

theorem bestStep_isSome_left {pw dw : ℚ} {dists : List DistanceEntry} {current : Order}
    {acc : Option (Order × ℚ)} {c : Order} (hacc : acc.isSome = true) :
    (bestStep pw dw dists current acc c).isSome = true := by
  cases h : bestStep pw dw dists current acc c with
  | some p => rfl
  | none =>
    obtain ⟨hnone, -⟩ := bestStep_none h
    rw [hnone] at hacc
    simp at hacc

theorem findBestPair_none {pw dw : ℚ} {dists : List DistanceEntry} {current : Order} :
    ∀ (l : List Order) (acc : Option (Order × ℚ)),
      findBestPair pw dw dists current l acc = none →
      acc = none ∧ ∀ x ∈ l, findEdge dists current.id x.id = none := by
  intro l
  induction l with
  | nil =>
    intro acc h
    exact ⟨h, by simp⟩
  | cons c rest ih =>
    intro acc h
    simp only [findBestPair] at h
    obtain ⟨hstep, hrest⟩ := ih _ h
    obtain ⟨hacc, hedge⟩ := bestStep_none hstep
    refine ⟨hacc, ?_⟩
    intro x hx
    rcases List.mem_cons.mp hx with hx1 | hx2
    · rw [hx1]; exact hedge
    · exact hrest x hx2

theorem findBestPair_sound {pw dw : ℚ} {dists : List DistanceEntry} {current : Order} :
    ∀ (l : List Order) (acc : Option (Order × ℚ)) (b : Order) (s : ℚ),
      findBestPair pw dw dists current l acc = some (b, s) →
      acc = some (b, s) ∨
        (b ∈ l ∧ ∃ e, findEdge dists current.id b.id = some e ∧ s = score pw dw e b) := by
  intro l
  induction l with
  | nil =>
    intro acc b s h
    exact Or.inl h
  | cons c rest ih =>
    intro acc b s h
    simp only [findBestPair] at h
    rcases ih _ _ _ h with hacc | hmem
    · rcases bestStep_sound hacc with hacc2 | ⟨hbc, e, hedge, hs⟩
      · exact Or.inl hacc2
      · exact Or.inr ⟨by rw [hbc]; exact List.mem_cons_self c rest, by rw [hbc]; exact ⟨e, hedge, hs⟩⟩
    · exact Or.inr ⟨List.mem_cons_of_mem c hmem.1, hmem.2⟩

theorem findBestPair_min {pw dw : ℚ} {dists : List DistanceEntry} {current : Order} :
    ∀ (l : List Order) (acc : Option (Order × ℚ)) (b : Order) (s : ℚ),
      findBestPair pw dw dists current l acc = some (b, s) →
      (∀ a0 s0, acc = some (a0, s0) → s ≤ s0) ∧
      (∀ x ∈ l, ∀ ex, findEdge dists current.id x.id = some ex → s ≤ score pw dw ex x) := by
  intro l
  induction l with
  | nil =>
    intro acc b s h
    refine ⟨?_, by simp⟩
    intro a0 s0 hacc
    simp only [findBestPair] at h
    rw [hacc] at h
    simp only [Option.some.injEq, Prod.mk.injEq] at h
    exact le_of_eq h.2.symm
  | cons c rest ih =>
    intro acc b s h
    simp only [findBestPair] at h
    obtain ⟨ihacc, ihrest⟩ := ih _ _ _ h
    constructor
    · intro a0 s0 hacc
      cases hstep : bestStep pw dw dists current acc c with
      | none =>
        obtain ⟨hnone, -⟩ := bestStep_none hstep
        rw [hacc] at hnone
        exact absurd hnone (by simp)
      | some p =>
        obtain ⟨b1, s1⟩ := p
        have hs1 : s ≤ s1 := ihacc b1 s1 hstep
        exact le_trans hs1 (bestStep_acc_bound hstep a0 s0 hacc)
    · intro x hx ex hedge
      rcases List.mem_cons.mp hx with hx1 | hx2
      · subst hx1
        cases hstep : bestStep pw dw dists current acc x with
        | none =>
          obtain ⟨-, hnone⟩ := bestStep_none hstep
          rw [hnone] at hedge
          exact absurd hedge (by simp)
        | some p =>
          obtain ⟨b1, s1⟩ := p
          have hs1 : s ≤ s1 := ihacc b1 s1 hstep
          exact le_trans hs1 (bestStep_edge_bound hstep ex hedge)
      · exact ihrest x hx2 ex hedge

theorem findBest_mem {pw dw : ℚ} {dists : List DistanceEntry} {current c : Order}
    {l : List Order} (h : findBest pw dw dists current l = some c) : c ∈ l := by
  unfold findBest at h
  cases hpair : findBestPair pw dw dists current l none with
  | none => rw [hpair] at h; simp at h
  | some p =>
    obtain ⟨b, s⟩ := p
    rw [hpair] at h
    have hbc : b = c := by simpa using h
    rw [hbc] at hpair
    rcases findBestPair_sound l none c s hpair with hacc | hmem
    · exact absurd hacc (by simp)
    · exact hmem.1

theorem findBest_min {pw dw : ℚ} {dists : List DistanceEntry} {current c : Order}
    {l : List Order} (h : findBest pw dw dists current l = some c) :
    ∃ e, findEdge dists current.id c.id = some e ∧
      ∀ x ∈ l, ∀ ex, findEdge dists current.id x.id = some ex →
        score pw dw e c ≤ score pw dw ex x := by
  unfold findBest at h
  cases hpair : findBestPair pw dw dists current l none with
  | none => rw [hpair] at h; simp at h
  | some p =>
    obtain ⟨b, s⟩ := p
    rw [hpair] at h
    have hbc : b = c := by simpa using h
    rw [hbc] at hpair
    rcases findBestPair_sound l none c s hpair with hacc | ⟨-, e, hedge, hs⟩
    · exact absurd hacc (by simp)
    · refine ⟨e, hedge, ?_⟩
      intro x hx ex hex
      rw [← hs]
      exact (findBestPair_min l none c s hpair).2 x hx ex hex

theorem findBest_none {pw dw : ℚ} {dists : List DistanceEntry} {current : Order}
    {l : List Order} (h : findBest pw dw dists current l = none) :
    ∀ x ∈ l, findEdge dists current.id x.id = none := by
  unfold findBest at h
  cases hpair : findBestPair pw dw dists current l none with
  | none => exact (findBestPair_none l none hpair).2
  | some p => rw [hpair] at h; simp at h

/-! ### Trace properties of the greedy loop -/

/-- At every step of a route, whenever some not-yet-visited order (the suffix of
the route) has distance data from the current order, the appended next order is
one with distance data and minimal weighted score among them. -/
def MinScoreSteps (pw dw : ℚ) (dists : List DistanceEntry) : List Order → Prop
  | a :: b :: rest =>
    ((∃ x ∈ b :: rest, (findEdge dists a.id x.id).isSome = true) →
      ∃ eb, findEdge dists a.id b.id = some eb ∧
        ∀ x ∈ b :: rest, ∀ ex, findEdge dists a.id x.id = some ex →
          score pw dw eb b ≤ score pw dw ex x) ∧
    MinScoreSteps pw dw dists (b :: rest)
  | _ => True

/-- At every step of a route, when no not-yet-visited order has distance data
from the current order, the appended next order is one of maximal priority among
the remaining ones. -/
def PriorityFallbackSteps (dists : List DistanceEntry) : List Order → Prop
  | a :: b :: rest =>
    ((∀ x ∈ b :: rest, findEdge dists a.id x.id = none) →
      ∀ x ∈ b :: rest, priorityValue x.priority ≤ priorityValue b.priority) ∧
    PriorityFallbackSteps dists (b :: rest)
  | _ => True

theorem nnLoop_perm (pw dw : ℚ) (dists : List DistanceEntry) :
    ∀ (fuel : ℕ) (current : Order) (unvisited : List Order),
      unvisited.length ≤ fuel →
      List.Perm (nnLoop pw dw dists fuel current unvisited) unvisited := by
  intro fuel
  induction fuel with
  | zero =>
    intro current unvisited h
    have hnil : unvisited = [] := List.length_eq_zero.mp (Nat.le_zero.mp h)
    subst hnil
    simp [nnLoop]
  | succ fuel ih =>
    intro current unvisited h
    cases unvisited with
    | nil => simp [nnLoop]
    | cons u us =>
      simp only [nnLoop, List.isEmpty_cons, Bool.false_eq_true, if_false]
      cases hfb : findBest pw dw dists current (u :: us) with
      | some c =>
        simp only []
        have hc : c ∈ u :: us := findBest_mem hfb
        have hlen : ((u :: us).erase c).length ≤ fuel := by
          rw [List.length_erase_of_mem hc]
          simp only [List.length_cons] at h ⊢
          omega
        have hperm := ih c ((u :: us).erase c) hlen
        exact (hperm.cons c).trans (List.perm_cons_erase hc).symm
      | none =>
        cases hsort : sortByPriorityDesc (u :: us) with
        | nil =>
          exfalso
          have hperm : List.Perm ([] : List Order) (u :: us) := by
            rw [← hsort]
            exact jsSort_perm priorityDescLe (u :: us)
          simpa using hperm.length_eq
        | cons hd t =>
          have hperm : List.Perm (hd :: t) (u :: us) := by
            rw [← hsort]
            exact jsSort_perm priorityDescLe (u :: us)
          have hlen : t.length ≤ fuel := by
            have hlen2 := hperm.length_eq
            simp only [List.length_cons] at hlen2 h
            omega
          have hloop := ih hd t hlen
          exact (hloop.cons hd).trans hperm

theorem nnLoop_suffix_subset (pw dw : ℚ) (dists : List DistanceEntry)
    (fuel : ℕ) (current : Order) (unvisited : List Order)
    (h : unvisited.length ≤ fuel) (x : Order)
    (hx : x ∈ nnLoop pw dw dists fuel current unvisited) : x ∈ unvisited :=
  (nnLoop_perm pw dw dists fuel current unvisited h).mem_iff.mp hx

theorem nnLoop_minScoreSteps (pw dw : ℚ) (dists : List DistanceEntry) :
    ∀ (fuel : ℕ) (current : Order) (unvisited : List Order),
      unvisited.length ≤ fuel →
      MinScoreSteps pw dw dists (current :: nnLoop pw dw dists fuel current unvisited) := by
  intro fuel
  induction fuel with
  | zero =>
    intro current unvisited h
    have hnil : unvisited = [] := List.length_eq_zero.mp (Nat.le_zero.mp h)
    subst hnil
    simp [nnLoop, MinScoreSteps]
  | succ fuel ih =>
    intro current unvisited h
    cases unvisited with
    | nil => simp [nnLoop, MinScoreSteps]
    | cons u us =>
      simp only [nnLoop, List.isEmpty_cons, Bool.false_eq_true, if_false]
      cases hfb : findBest pw dw dists current (u :: us) with
      | some c =>
        have hc : c ∈ u :: us := findBest_mem hfb
        have hlen : ((u :: us).erase c).length ≤ fuel := by
          rw [List.length_erase_of_mem hc]
          simp only [List.length_cons] at h ⊢
          omega
        refine ⟨?_, ih c ((u :: us).erase c) hlen⟩
        intro _
        obtain ⟨e, hedge, hmin⟩ := findBest_min hfb
        refine ⟨e, hedge, ?_⟩
        intro x hx ex hex
        have hxu : x ∈ u :: us := by
          rcases List.mem_cons.mp hx with hx1 | hx2
          · rw [hx1]; exact hc
          · exact List.mem_of_mem_erase
              (nnLoop_suffix_subset pw dw dists fuel c ((u :: us).erase c) hlen x hx2)
        exact hmin x hxu ex hex
      | none =>
        cases hsort : sortByPriorityDesc (u :: us) with
        | nil =>
          exfalso
          have hperm : List.Perm ([] : List Order) (u :: us) := by
            rw [← hsort]
            exact jsSort_perm priorityDescLe (u :: us)
          simpa using hperm.length_eq
        | cons hd t =>
          have hperm : List.Perm (hd :: t) (u :: us) := by
            rw [← hsort]
            exact jsSort_perm priorityDescLe (u :: us)
          have hlen : t.length ≤ fuel := by
            have hlen2 := hperm.length_eq
            simp only [List.length_cons] at hlen2 h
            omega
          refine ⟨?_, ih hd t hlen⟩
          intro hex
          exfalso
          obtain ⟨x, hx, hxsome⟩ := hex
          have hxu : x ∈ u :: us := by
            rcases List.mem_cons.mp hx with hx1 | hx2
            · rw [hx1]
              exact hperm.mem_iff.mp (List.mem_cons_self hd t)
            · exact hperm.mem_iff.mp
                (List.mem_cons_of_mem hd (nnLoop_suffix_subset pw dw dists fuel hd t hlen x hx2))
          rw [findBest_none hfb x hxu] at hxsome
          simp at hxsome

theorem nnLoop_fallbackSteps (pw dw : ℚ) (dists : List DistanceEntry) :
    ∀ (fuel : ℕ) (current : Order) (unvisited : List Order),
      unvisited.length ≤ fuel →
      PriorityFallbackSteps dists (current :: nnLoop pw dw dists fuel current unvisited) := by
  intro fuel
  induction fuel with
  | zero =>
    intro current unvisited h
    have hnil : unvisited = [] := List.length_eq_zero.mp (Nat.le_zero.mp h)
    subst hnil
    simp [nnLoop, PriorityFallbackSteps]
  | succ fuel ih =>
    intro current unvisited h
    cases unvisited with
    | nil => simp [nnLoop, PriorityFallbackSteps]
    | cons u us =>
      simp only [nnLoop, List.isEmpty_cons, Bool.false_eq_true, if_false]
      cases hfb : findBest pw dw dists current (u :: us) with
      | some c =>
        have hc : c ∈ u :: us := findBest_mem hfb
        have hlen : ((u :: us).erase c).length ≤ fuel := by
          rw [List.length_erase_of_mem hc]
          simp only [List.length_cons] at h ⊢
          omega
        refine ⟨?_, ih c ((u :: us).erase c) hlen⟩
        intro hall
        exfalso
        obtain ⟨e, hedge, -⟩ := findBest_min hfb
        have := hall c (List.mem_cons_self c _)
        rw [this] at hedge
        simp at hedge
      | none =>
        cases hsort : sortByPriorityDesc (u :: us) with
        | nil =>
          exfalso
          have hperm : List.Perm ([] : List Order) (u :: us) := by
            rw [← hsort]
            exact jsSort_perm priorityDescLe (u :: us)
          simpa using hperm.length_eq
        | cons hd t =>
          have hperm : List.Perm (hd :: t) (u :: us) := by
            rw [← hsort]
            exact jsSort_perm priorityDescLe (u :: us)
          have hlen : t.length ≤ fuel := by
            have hlen2 := hperm.length_eq
            simp only [List.length_cons] at hlen2 h
            omega
          refine ⟨?_, ih hd t hlen⟩
          intro _ x hx
          have hxu : x ∈ u :: us := by
            rcases List.mem_cons.mp hx with hx1 | hx2
            · rw [hx1]
              exact hperm.mem_iff.mp (List.mem_cons_self hd t)
            · exact hperm.mem_iff.mp
                (List.mem_cons_of_mem hd (nnLoop_suffix_subset pw dw dists fuel hd t hlen x hx2))
          have hle := jsSort_head_le priorityDescLe priorityDescLe_total priorityDescLe_trans
            (u :: us) hd t hsort x hxu
          unfold priorityDescLe at hle
          exact of_decide_eq_true hle

/-! ### Route-level consequences -/

theorem nearestNeighborWithPriority_perm (orders : List Order)
    (dists : List DistanceEntry) (pw dw : ℚ) :
    List.Perm (nearestNeighborWithPriority orders dists pw dw) orders := by
  unfold nearestNeighborWithPriority
  cases hsort : sortByPriorityDesc orders with
  | nil =>
    have hperm : List.Perm ([] : List Order) orders := by
      rw [← hsort]
      exact jsSort_perm priorityDescLe orders
    simpa using hperm
  | cons current rest =>
    have hperm : List.Perm (current :: rest) orders := by
      rw [← hsort]
      exact jsSort_perm priorityDescLe orders
    exact ((nnLoop_perm pw dw dists rest.length current rest (le_refl _)).cons current).trans hperm

theorem nearestNeighborWithPriority_minScoreSteps (orders : List Order)
    (dists : List DistanceEntry) (pw dw : ℚ) :
    MinScoreSteps pw dw dists (nearestNeighborWithPriority orders dists pw dw) := by
  unfold nearestNeighborWithPriority
  cases hsort : sortByPriorityDesc orders with
  | nil => simp [MinScoreSteps]
  | cons current rest =>
    exact nnLoop_minScoreSteps pw dw dists rest.length current rest (le_refl _)

theorem nearestNeighborWithPriority_fallbackSteps (orders : List Order)
    (dists : List DistanceEntry) (pw dw : ℚ) :
    PriorityFallbackSteps dists (nearestNeighborWithPriority orders dists pw dw) := by
  unfold nearestNeighborWithPriority
  cases hsort : sortByPriorityDesc orders with
  | nil => simp [PriorityFallbackSteps]
  | cons current rest =>
    exact nnLoop_fallbackSteps pw dw dists rest.length current rest (le_refl _)

theorem nearestNeighborWithPriority_head (orders : List Order)
    (dists : List DistanceEntry) (pw dw : ℚ) (hd : Order)
    (hhd : (nearestNeighborWithPriority orders dists pw dw).head? = some hd) :
    hd ∈ orders ∧ ∀ x ∈ orders, priorityValue x.priority ≤ priorityValue hd.priority := by
  unfold nearestNeighborWithPriority at hhd
  cases hsort : sortByPriorityDesc orders with
  | nil => rw [hsort] at hhd; simp at hhd
  | cons current rest =>
    rw [hsort] at hhd
    simp only [List.head?_cons, Option.some.injEq] at hhd
    subst hhd
    have hperm : List.Perm (current :: rest) orders := by
      rw [← hsort]
      exact jsSort_perm priorityDescLe orders
    refine ⟨hperm.mem_iff.mp (List.mem_cons_self current rest), ?_⟩
    intro x hx
    have hle := jsSort_head_le priorityDescLe priorityDescLe_total priorityDescLe_trans
      orders current rest hsort x hx
    unfold priorityDescLe at hle
    exact of_decide_eq_true hle

/-! ### External-provider environment and effect counting -/

/-- Outcome of one provider geocode for an address (the cache-backed
`Geocoder.geocodeAddress` as observed by the optimizer). -/
structure GeoLookup where
  isValid : Bool
  latitude : ℚ
  longitude : ℚ
deriving DecidableEq, Repr

/-- One cell of the distance-matrix provider response, `none` for a per-cell
error status (`element.status !== 'OK'`). -/
structure CellData where
  distanceMeters : ℕ
  durationSeconds : ℕ
  durationInTrafficSeconds : Option ℕ
deriving DecidableEq, Repr

/-- Pure oracles standing for the external Google-Maps providers: `geocode`
resolves an address, `cell i j` is the matrix element between the `i`-th origin
and `j`-th destination of a distance-matrix request. -/
structure ProviderEnv where
  geocode : String → GeoLookup
  cell : ℕ → ℕ → Option CellData

/-- Counts of heuristic executions and external provider calls made by an
embedded operation. -/
structure Effects where
  heuristicRuns : ℕ
  geocodeCalls : ℕ
  distanceMatrixCalls : ℕ
  directionsCalls : ℕ
deriving DecidableEq, Repr

def Effects.zero : Effects := ⟨0, 0, 0, 0⟩

def Effects.add (a b : Effects) : Effects :=
  ⟨a.heuristicRuns + b.heuristicRuns, a.geocodeCalls + b.geocodeCalls,
   a.distanceMatrixCalls + b.distanceMatrixCalls, a.directionsCalls + b.directionsCalls⟩

/-- One heuristic execution. -/
def Effects.oneHeuristic : Effects := ⟨1, 0, 0, 0⟩

/-- One geocoding provider call. -/
def Effects.oneGeocode : Effects := ⟨0, 1, 0, 0⟩

/-- One distance-matrix provider call. -/
def Effects.oneDistanceMatrix : Effects := ⟨0, 0, 1, 0⟩

/-- Embeds `geocodeOrders(orders)` (optimizer.js lines 358–379): resolve coordinates for
orders that have none; an invalid geocode leaves `coordinates = null`. -/
def geocodeOrders (env : ProviderEnv) : List Order → List Order × Effects
  | [] => ([], Effects.zero)
  | o :: rest =>
    let r := geocodeOrders env rest
    match o.coordinates with
    | some _ => (o :: r.1, r.2)
    | none =>
      let g := env.geocode o.deliveryAddress
      let o2 : Order :=
        { o with coordinates := if g.isValid then some ⟨g.latitude, g.longitude⟩ else none }
      (o2 :: r.1, Effects.add Effects.oneGeocode r.2)

/-- A delivery point handed to the distance-matrix client. -/
structure DeliveryPoint where
  orderId : ℕ
  latitude : ℚ
  longitude : ℚ
  address : String
deriving DecidableEq, Repr

/-- The `map`/`filter(point => point.latitude && point.longitude)` conversion of
geocoded orders to delivery points (optimizer.js lines 168–174): JavaScript
truthiness makes coordinate `0` fall out as well. -/
def toDeliveryPoints (orders : List Order) : List DeliveryPoint :=
  orders.filterMap fun o =>
    match o.coordinates with
    | some c =>
      if c.latitude ≠ 0 ∧ c.longitude ≠ 0 then
        some ⟨o.id, c.latitude, c.longitude, o.deliveryAddress⟩
      else none
    | none => none

/-- JavaScript's `a?.value || b`: an absent or zero traffic duration falls back
to the plain duration (distance-matrix.js line 184). -/
def jsOrElse (a : Option ℕ) (b : ℕ) : ℕ :=
  match a with
  | some v => if v = 0 then b else v
  | none => b

/-- Embeds `formatForRouteOptimization` (distance-matrix.js lines 169–194): every
ordered pair of distinct point indices with an `OK` matrix cell becomes one
entry, keyed by order ids and carrying the point indices. -/
def formatForRouteOptimization (cell : ℕ → ℕ → Option CellData)
    (deliveryPoints : List DeliveryPoint) : List DistanceEntry :=
  (List.range deliveryPoints.length).flatMap fun i =>
    (List.range deliveryPoints.length).filterMap fun j =>
      if i = j then none
      else
        match deliveryPoints.get? i, deliveryPoints.get? j, cell i j with
        | some pi, some pj, some c =>
          some
            { fromOrderId := pi.orderId, toOrderId := pj.orderId,
              fromAddress := pi.address, toAddress := pj.address,
              distanceMeters := c.distanceMeters,
              durationSeconds := c.durationSeconds,
              durationInTrafficSeconds := jsOrElse c.durationInTrafficSeconds c.durationSeconds,
              fromIndex := i, toIndex := j }
        | _, _, _ => none

/-- Result of `calculateDeliveryDistances` (distance-matrix.js lines 124–164). -/
structure DistanceData where
  distances : List DistanceEntry
  totalPoints : ℕ
deriving DecidableEq, Repr

/-- Embeds `calculateDeliveryDistances(deliveryPoints)`: fewer than two points short-circuits
with an empty list and no provider call; otherwise one batched matrix call. -/
def calculateDeliveryDistances (env : ProviderEnv) (deliveryPoints : List DeliveryPoint) :
    DistanceData × Effects :=
  if deliveryPoints.length < 2 then
    (⟨[], deliveryPoints.length⟩, Effects.zero)
  else
    (⟨formatForRouteOptimization env.cell deliveryPoints, deliveryPoints.length⟩,
     Effects.oneDistanceMatrix)

/-- Embeds `formatDuration(seconds)` (distance-matrix.js lines 258–267). -/
def formatDuration (seconds : ℕ) : String :=
  let hours := seconds / 3600
  let minutes := (seconds % 3600) / 60
  if hours > 0 then s!"{hours}h {minutes}m" else s!"{minutes}m"

/-- Embeds `toFixed(2)` of `meters / 1000`: two-decimal kilometre string (float rounding
modelled as round-half-up on exact decimals). -/
def kmTwoDecimals (meters : ℕ) : String :=
  let centi := (meters + 5) / 10
  let whole := centi / 100
  let frac := centi % 100
  let fracStr := if frac < 10 then "0" ++ toString frac else toString frac
  s!"{whole}.{fracStr}"

/-- Totals of `calculateRouteTotals` (distance-matrix.js lines 223–253). -/
structure RouteTotals where
  totalDistanceMeters : ℕ
  totalDurationSeconds : ℕ
  totalDurationInTrafficSeconds : ℕ
  totalDistanceKm : String
  totalDurationText : String
  totalDurationInTrafficText : String
deriving DecidableEq, Repr

/-- The per-leg summation loop of `calculateRouteTotals`: each consecutive pair of
route points is looked up by `fromIndex`/`toIndex` equal to the points' `.index`
fields. -/
def routeTotalsSums (distanceMatrix : List DistanceEntry) :
    List (Order × ℕ) → ℕ × ℕ × ℕ
  | a :: b :: rest =>
    let t := routeTotalsSums distanceMatrix (b :: rest)
    match distanceMatrix.find? fun d => decide (d.fromIndex = a.2) && decide (d.toIndex = b.2) with
    | some d =>
      (t.1 + d.distanceMeters, t.2.1 + d.durationSeconds, t.2.2 + d.durationInTrafficSeconds)
    | none => t
  | _ => (0, 0, 0)

/-- Embeds `calculateRouteTotals(routePoints, distanceMatrix)`: route points carry an
`.index` field (second component). -/
def calculateRouteTotals (routePoints : List (Order × ℕ))
    (distanceMatrix : List DistanceEntry) : RouteTotals :=
  let sums := routeTotalsSums distanceMatrix routePoints
  { totalDistanceMeters := sums.1
    totalDurationSeconds := sums.2.1
    totalDurationInTrafficSeconds := sums.2.2
    totalDistanceKm := kmTwoDecimals sums.1
    totalDurationText := formatDuration sums.2.1
    totalDurationInTrafficText := formatDuration sums.2.2 }

/-! ### Formatting optimization results -/

/-- One stop of the emitted optimized sequence (`optimizedOrders.map((order, index) =>
({...order, sequenceNumber: index + 1, estimatedDeliveryTime: ...}))`). -/
structure SequencedStop where
  order : Order
  sequenceNumber : ℕ
  estimatedDeliveryTime : String
deriving DecidableEq, Repr

/-- Metadata handed to `formatOptimizationResult`. -/
structure OptMetadata where
  algorithm : String
  includeTraffic : Bool
  estimatedImprovement : String
  distanceData : Option DistanceData
deriving DecidableEq, Repr

/-- The optimization result object (optimizer.js lines 495–528). -/
structure OptimizationResult where
  success : Bool
  algorithm : String
  totalOrders : ℕ
  optimizedSequence : List SequencedStop
  estimatedDuration : String
  estimatedDistance : String
  realDistanceCalculated : Bool
  estimatedImprovement : String
deriving DecidableEq, Repr

/-- Attach sequence numbers and the `(index + 1) * 15` minute placeholder. -/
def sequenceStops (orders : List Order) : List SequencedStop :=
  orders.enum.map fun p =>
    let n := p.1 + 1
    let mins := n * 15
    ⟨p.2, n, s!"{mins} minutes"⟩

/-- Embeds `formatOptimizationResult(optimizedOrders, metadata)` (optimizer.js lines
495–528).  With distance data present, the totals are computed by
`calculateRouteTotals` over route points whose `.index` is the position in the
optimized sequence (the source also computes an unused `routeDistance` local via
`calculateRouteDistance`, omitted here).  The `optimizedAt` ISO timestamp field
is omitted from the model. -/
def formatOptimizationResult (optimizedOrders : List Order) (metadata : OptMetadata) :
    OptimizationResult :=
  let baseMinutes := optimizedOrders.length * 15
  let baseKm := optimizedOrders.length * 5
  let base : OptimizationResult :=
    { success := true
      algorithm := metadata.algorithm
      totalOrders := optimizedOrders.length
      optimizedSequence := sequenceStops optimizedOrders
      estimatedDuration := s!"{baseMinutes} minutes"
      estimatedDistance := s!"{baseKm} km"
      realDistanceCalculated := false
      estimatedImprovement := metadata.estimatedImprovement }
  match metadata.distanceData with
  | none => base
  | some dd =>
    let totals := calculateRouteTotals (optimizedOrders.enum.map fun p => (p.2, p.1)) dd.distances
    { base with
      estimatedDuration := totals.totalDurationInTrafficText
      estimatedDistance := totals.totalDistanceKm ++ " km"
      realDistanceCalculated := true }

/-- Embeds `createSingleOrderRoute(order)` (optimizer.js lines 484–490). -/
def createSingleOrderRoute (order : Order) : OptimizationResult :=
  formatOptimizationResult [order]
    { algorithm := "SINGLE_ORDER", includeTraffic := false,
      estimatedImprovement := "0%", distanceData := none }

/-! ### Algorithm selection and the heuristic drivers -/

/-- The `this.algorithms` table: `priority`, `nearest_neighbor`, `genetic`,
`or_tools`, `hybrid`. -/
inductive Algorithm where
  | priorityBased
  | nearestNeighbor
  | genetic
  | orTools
  | hybrid
deriving DecidableEq, Repr

/-- Embeds `selectOptimalAlgorithm(orderCount, requestedAlgorithm)` (optimizer.js lines
71–87): a named algorithm other than `hybrid` wins; otherwise the size table
(≤3 priority, ≤10 nearest-neighbor, ≤25 genetic, else or-tools).  `none` models
a falsy requested algorithm. -/
def selectOptimalAlgorithm (orderCount : ℕ) (requestedAlgorithm : Option Algorithm) :
    Algorithm :=
  let sizeChoice :=
    if orderCount ≤ 3 then Algorithm.priorityBased
    else if orderCount ≤ 10 then Algorithm.nearestNeighbor
    else if orderCount ≤ 25 then Algorithm.genetic
    else Algorithm.orTools
  match requestedAlgorithm with
  | some a => if a = Algorithm.hybrid then sizeChoice else a
  | none => sizeChoice

/-- Options destructured by `optimizeRoute` and passed through to the heuristics. -/
structure OptimizeOptions where
  algorithm : Option Algorithm
  includeTraffic : Bool
  useCoordinates : Bool
  priorityWeight : Option ℚ
  distanceWeight : Option ℚ
deriving Repr

/-- Embeds `groupOrdersByPriority(orders)` (optimizer.js lines 384–393): groups keyed in
first-occurrence order, preserving order within each group (JavaScript object
key insertion order). -/
def groupOrdersByPriority (orders : List Order) : List (Priority × List Order) :=
  orders.foldl
    (fun groups o =>
      if groups.any fun g => decide (g.1 = o.priority) then
        groups.map fun g => if g.1 = o.priority then (g.1, g.2 ++ [o]) else g
      else groups ++ [(o.priority, [o])])
    []

/-- The inner scan of `simpleNearestNeighbor` (optimizer.js lines 432–445):
nearest unvisited candidate by `durationInTrafficSeconds`, strict improvement. -/
def nearestStep (distances : List DistanceEntry) (current : Order)
    (acc : Option (Order × ℕ)) (candidate : Order) : Option (Order × ℕ) :=
  match findEdge distances current.id candidate.id with
  | none => acc
  | some e =>
    match acc with
    | none => some (candidate, e.durationInTrafficSeconds)
    | some (b, bs) =>
      if e.durationInTrafficSeconds < bs then some (candidate, e.durationInTrafficSeconds)
      else some (b, bs)

def findNearest (distances : List DistanceEntry) (current : Order)
    (unvisited : List Order) : Option Order :=
  (unvisited.foldl (nearestStep distances current) none).map Prod.fst

/-- The `while` loop of `simpleNearestNeighbor` (optimizer.js lines 423–460); on
missing distance data the next order in array order is taken. -/
def snnLoop (distances : List DistanceEntry) : ℕ → Order → List Order → List Order
  | 0, _, _ => []
  | fuel + 1, current, unvisited =>
    if unvisited.isEmpty then []
    else
      match findNearest distances current unvisited with
      | some c => c :: snnLoop distances fuel c (unvisited.erase c)
      | none =>
        match unvisited with
        | [] => []
        | h :: t => h :: snnLoop distances fuel h t

/-- Embeds `simpleNearestNeighbor(orders, distances)`: starts with the first order. -/
def simpleNearestNeighbor (orders : List Order) (distances : List DistanceEntry) :
    List Order :=
  match orders with
  | [] => []
  | c :: rest => c :: snnLoop distances rest.length c rest

/-- Embeds `nearestNeighborForGroup(orders, options)` (optimizer.js lines 398–418). -/
def nearestNeighborForGroup (env : ProviderEnv) (orders : List Order) :
    List Order × Effects :=
  if orders.length ≤ 1 then (orders, Effects.zero)
  else
    let deliveryPoints := toDeliveryPoints orders
    if deliveryPoints.length < 2 then (orders, Effects.zero)
    else
      let dd := calculateDeliveryDistances env deliveryPoints
      (simpleNearestNeighbor orders dd.1.distances, dd.2)

/-- The per-group loop of `priorityWithDistanceOptimization` (optimizer.js lines
134–144). -/
def optimizeGroups (env : ProviderEnv) : List (Priority × List Order) → List Order × Effects
  | [] => ([], Effects.zero)
  | (_, groupOrders) :: rest =>
    let r := optimizeGroups env rest
    if groupOrders.length ≤ 1 then (groupOrders ++ r.1, r.2)
    else
      let g := nearestNeighborForGroup env groupOrders
      (g.1 ++ r.1, Effects.add g.2 r.2)

/-- Embeds `priorityWithDistanceOptimization(orders, options)` (optimizer.js lines
125–157): geocode, group by priority, nearest-neighbor inside each group. -/
def priorityWithDistanceOptimization (env : ProviderEnv) (orders : List Order)
    (opts : OptimizeOptions) : OptimizationResult × Effects :=
  let g := geocodeOrders env orders
  let groups := groupOrdersByPriority g.1
  let og := optimizeGroups env groups
  (formatOptimizationResult og.1
    { algorithm := "PRIORITY_WITH_DISTANCE", includeTraffic := opts.includeTraffic,
      estimatedImprovement := "15-25%", distanceData := none },
   Effects.add Effects.oneHeuristic (Effects.add g.2 og.2))

/-- Embeds `priorityBasedOptimization(orders, options)` (optimizer.js lines 92–120):
stable sort by priority rank descending then creation time ascending; with
`includeTraffic`/`useCoordinates` requested, hand the sorted orders to the
distance-aware variant. -/
def priorityBasedOptimization (env : ProviderEnv) (orders : List Order)
    (opts : OptimizeOptions) : OptimizationResult × Effects :=
  let sortedOrders := jsSort priorityTimeLe orders
  if opts.includeTraffic || opts.useCoordinates then
    priorityWithDistanceOptimization env sortedOrders opts
  else
    (formatOptimizationResult sortedOrders
      { algorithm := "priority", includeTraffic := false,
        estimatedImprovement := "0%", distanceData := none },
     Effects.oneHeuristic)

/-- Embeds `nearestNeighborOptimization(orders, options)` (optimizer.js lines 162–201):
geocode, compute the distance matrix, run the priority-weighted nearest-neighbor
heuristic; fewer than two geocoded points falls back to priority-based. -/
def nearestNeighborOptimization (env : ProviderEnv) (orders : List Order)
    (opts : OptimizeOptions) : OptimizationResult × Effects :=
  let g := geocodeOrders env orders
  let deliveryPoints := toDeliveryPoints g.1
  if deliveryPoints.length < 2 then
    let r := priorityBasedOptimization env orders opts
    (r.1, Effects.add g.2 r.2)
  else
    let dd := calculateDeliveryDistances env deliveryPoints
    let optimizedRoute := nearestNeighborWithPriority g.1 dd.1.distances
      (opts.priorityWeight.getD defaultPriorityWeight)
      (opts.distanceWeight.getD defaultDistanceWeight)
    (formatOptimizationResult optimizedRoute
      { algorithm := "nearest_neighbor", includeTraffic := opts.includeTraffic,
        estimatedImprovement := "25-40%", distanceData := some dd.1 },
     Effects.add g.2 (Effects.add dd.2 Effects.oneHeuristic))

/-- The four fixed weight pairs `(priorityWeight, distanceWeight)` of
`geneticAlgorithmOptimization` (optimizer.js lines 287–292). -/
def geneticParameterSets : List (ℚ × ℚ) :=
  [(2 / 10, 8 / 10), (3 / 10, 7 / 10), (4 / 10, 6 / 10), (5 / 10, 5 / 10)]

/-- The four candidate routes with their total traversal costs (optimizer.js
lines 294–298). -/
def geneticAttempts (orders : List Order) (distances : List DistanceEntry) :
    List (List Order × ℕ) :=
  geneticParameterSets.map fun params =>
    let route := nearestNeighborWithPriority orders distances params.1 params.2
    (route, calculateRouteDistance route distances)

/-- Comparator relation of `attempts.sort((a, b) => a.distance - b.distance)`. -/
def distanceAttemptLe (a b : List Order × ℕ) : Bool :=
  decide (a.2 ≤ b.2)

/-- Embeds `attempts.sort(...)[0].route` (optimizer.js lines 300–301): the lowest-cost
candidate (stable sort keeps the first parameter set on ties). -/
def geneticSelectBest (orders : List Order) (distances : List DistanceEntry) :
    List Order :=
  match jsSort distanceAttemptLe (geneticAttempts orders distances) with
  | [] => []
  | best :: _ => best.1

/-- Embeds `geneticAlgorithmOptimization(orders, options)` (optimizer.js lines 262–315):
multi-start nearest-neighbor, keeping the lowest-cost of the four runs. -/
def geneticAlgorithmOptimization (env : ProviderEnv) (orders : List Order)
    (opts : OptimizeOptions) : OptimizationResult × Effects :=
  let g := geocodeOrders env orders
  let deliveryPoints := toDeliveryPoints g.1
  if deliveryPoints.length < 2 then
    let r := priorityBasedOptimization env orders opts
    (r.1, Effects.add g.2 r.2)
  else
    let dd := calculateDeliveryDistances env deliveryPoints
    let bestRoute := geneticSelectBest g.1 dd.1.distances
    (formatOptimizationResult bestRoute
      { algorithm := "genetic", includeTraffic := opts.includeTraffic,
        estimatedImprovement := "30-50%", distanceData := some dd.1 },
     Effects.add g.2 (Effects.add dd.2 Effects.oneHeuristic))

/-- Embeds `orToolsVrpOptimization(orders, options)` (optimizer.js lines 320–332): a
placeholder that runs `geneticAlgorithmOptimization`. -/
def orToolsVrpOptimization (env : ProviderEnv) (orders : List Order)
    (opts : OptimizeOptions) : OptimizationResult × Effects :=
  geneticAlgorithmOptimization env orders opts

/-- Embeds `hybridOptimization(orders, options)` (optimizer.js lines 337–353). -/
def hybridOptimization (env : ProviderEnv) (orders : List Order)
    (opts : OptimizeOptions) : OptimizationResult × Effects :=
  if orders.length ≤ 3 then priorityBasedOptimization env orders opts
  else if orders.length ≤ 10 then nearestNeighborOptimization env orders opts
  else geneticAlgorithmOptimization env orders opts

/-- The `switch (selectedAlgorithm)` dispatch of `optimizeRoute` (optimizer.js
lines 44–60). -/
def runAlgorithm (env : ProviderEnv) (alg : Algorithm) (orders : List Order)
    (opts : OptimizeOptions) : OptimizationResult × Effects :=
  match alg with
  | .priorityBased => priorityBasedOptimization env orders opts
  | .nearestNeighbor => nearestNeighborOptimization env orders opts
  | .genetic => geneticAlgorithmOptimization env orders opts
  | .orTools => orToolsVrpOptimization env orders opts
  | .hybrid => hybridOptimization env orders opts

/-- Embeds `RouteOptimizer.optimizeRoute(orders, options)` (optimizer.js lines 18–66):
empty input throws (modelled as `none`), a single order short-circuits to the
trivial route, otherwise the selected algorithm runs. -/
def optimizerOptimizeRoute (env : ProviderEnv) (orders : List Order)
    (opts : OptimizeOptions) : Option (OptimizationResult × Effects) :=
  match orders with
  | [] => none
  | [o] => some (createSingleOrderRoute o, Effects.zero)
  | _ =>
    some (runAlgorithm env (selectOptimalAlgorithm orders.length opts.algorithm) orders opts)

/-! ### The geocoder cache (`Geocoder.geocodeAddress`)

The MD5 digest of the source (`crypto.createHash('md5')`) is modelled by an
injective digest of the normalized string; every property below depends only on
the digest being a deterministic function of the lower-cased, trimmed address. -/

/-- The geocode result object returned by `geocodeAddress`.  JavaScript object
fields that a given code path does not set (e.g. `error` on a success or cached
result) are modelled by `none`. -/
structure GeoResult where
  latitude : Option ℚ
  longitude : Option ℚ
  formattedAddress : String
  isValid : Bool
  isGeocoded : Bool
  error : Option String
deriving DecidableEq, Repr

/-- A row of the `addressGeoCache` table (no `error` column). -/
structure GeoCacheEntry where
  addressHash : String
  originalAddress : String
  formattedAddress : String
  latitude : Option ℚ
  longitude : Option ℚ
  isValid : Bool
  isGeocoded : Bool
deriving DecidableEq, Repr

/-- Response of the external geocoding provider: a resolved location or a
non-`OK` status (`ZERO_RESULTS`, ...). -/
inductive ProviderResponse where
  | ok (lat lng : ℚ) (formatted : String)
  | noMatch (status : String)
deriving DecidableEq, Repr

/-- The cache table, keyed by address hash (unique constraint modelled as a map). -/
def GeoStore : Type := String → Option GeoCacheEntry

/-- Embeds `createAddressHash(address)` (geocoder lines 144–147): digest of
`address.toLowerCase().trim()`. -/
def createAddressHash (address : String) : String :=
  address.toLower.trim

/-- Prisma `upsert` on the unique `addressHash` key. -/
def geoStoreUpsert (store : GeoStore) (entry : GeoCacheEntry) : GeoStore :=
  fun k => if k = entry.addressHash then some entry else store k

/-- Embeds `geocodeAddress(address)` (geocoder lines 13–56), returning the result, the
updated cache, and the number of provider calls made.  A cache hit returns the
stored fields (no `error` field); a miss calls the provider once and caches the
outcome, valid or invalid. -/
def geocodeAddress (provider : String → ProviderResponse) (store : GeoStore)
    (address : String) : GeoResult × GeoStore × ℕ :=
  match store (createAddressHash address) with
  | some e =>
    (⟨e.latitude, e.longitude, e.formattedAddress, e.isValid, e.isGeocoded, none⟩, store, 0)
  | none =>
    match provider address with
    | .ok lat lng formatted =>
      let res : GeoResult := ⟨some lat, some lng, formatted, true, true, none⟩
      let entry : GeoCacheEntry :=
        ⟨createAddressHash address, address, formatted, some lat, some lng, true, true⟩
      (res, geoStoreUpsert store entry, 1)
    | .noMatch status =>
      let res : GeoResult := ⟨none, none, address, false, false, some status⟩
      let entry : GeoCacheEntry :=
        ⟨createAddressHash address, address, address, none, none, false, false⟩
      (res, geoStoreUpsert store entry, 1)

/-! ### The route service (`service.js`) -/

/-- A persisted `routeOptimization` row for one driver (the opaque
`optimizationData` JSON is modelled by the fields the service writes). -/
structure OptimizationState where
  routeOptimized : Bool
  optimizedAt : ℕ
  estimatedDuration : String
  estimatedDistance : String
  method : String
  includeTrafficFlag : Bool
  useGoogleMapsFlag : Bool
  forceRecalculateFlag : Bool
  realDistanceCalculated : Bool
  totalOrders : ℕ
deriving DecidableEq, Repr

/-- Options of `RouteService.optimizeRoute` (service.js lines 114–119). -/
structure ServiceOptions where
  forceRecalculate : Bool
  includeTraffic : Bool
  algorithm : Option Algorithm
  useGoogleMaps : Bool
deriving Repr

/-- The `data` object of an optimize response; fields absent on a given code
path are `none`. -/
structure ServiceRouteData where
  driverId : ℕ
  routeOptimized : Bool
  totalOrders : ℕ
  optimizedSequence : Option (List SequencedStop)
  optimizedAt : Option ℕ
  estimatedDuration : Option String
  estimatedDistance : Option String
  optimizationMethod : Option String
  includeTraffic : Option Bool
  realDistanceCalculated : Option Bool
  estimatedImprovement : Option String
  fromCache : Option Bool
deriving DecidableEq, Repr

/-- An optimize response envelope. -/
structure ServiceResponse where
  success : Bool
  message : String
  messageAr : String
  data : Option ServiceRouteData
deriving DecidableEq, Repr

/-- Embeds `applyBasicOptimizationAlgorithm(orders, options)` (service.js lines 427–463). -/
def applyBasicOptimizationAlgorithm (orders : List Order) : OptimizationResult :=
  let optimizedOrders := jsSort priorityTimeLe orders
  let baseMinutes := optimizedOrders.length * 15
  let baseKm := optimizedOrders.length * 5
  { success := true
    algorithm := "PRIORITY_BASED"
    totalOrders := optimizedOrders.length
    optimizedSequence := sequenceStops optimizedOrders
    estimatedDuration := s!"{baseMinutes} minutes"
    estimatedDistance := s!"{baseKm} km"
    realDistanceCalculated := false
    estimatedImprovement := "0%" }

/-- The compute-and-persist path of `RouteService.optimizeRoute` (service.js
lines 159–243): advanced optimization when Google Maps is enabled and more than
one order exists (falling back to the basic algorithm when the optimizer
rejects the input), then upsert of the per-driver state and the success
response. -/
def svcComputeOptimization (env : ProviderEnv) (driverId : ℕ) (orders : List Order)
    (opts : ServiceOptions) (now : ℕ) :
    ServiceResponse × Option OptimizationState × Effects :=
  let computed :=
    if opts.useGoogleMaps ∧ orders.length > 1 then
      match optimizerOptimizeRoute env orders
        ⟨opts.algorithm, opts.includeTraffic, false, none, none⟩ with
      | some r => r
      | none => (applyBasicOptimizationAlgorithm orders, Effects.oneHeuristic)
    else
      (applyBasicOptimizationAlgorithm orders, Effects.oneHeuristic)
  let optimizationResult := computed.1
  let newState : OptimizationState :=
    { routeOptimized := true
      optimizedAt := now
      estimatedDuration := optimizationResult.estimatedDuration
      estimatedDistance := optimizationResult.estimatedDistance
      method := optimizationResult.algorithm
      includeTrafficFlag := opts.includeTraffic
      useGoogleMapsFlag := opts.useGoogleMaps
      forceRecalculateFlag := opts.forceRecalculate
      realDistanceCalculated := optimizationResult.realDistanceCalculated
      totalOrders := optimizationResult.totalOrders }
  (⟨true, "Route optimized successfully", "تم تحسين المسار بنجاح",
    some
      { driverId := driverId
        routeOptimized := true
        totalOrders := optimizationResult.totalOrders
        optimizedSequence := some optimizationResult.optimizedSequence
        optimizedAt := some now
        estimatedDuration := some optimizationResult.estimatedDuration
        estimatedDistance := some optimizationResult.estimatedDistance
        optimizationMethod := some optimizationResult.algorithm
        includeTraffic := some opts.includeTraffic
        realDistanceCalculated := some optimizationResult.realDistanceCalculated
        estimatedImprovement := some optimizationResult.estimatedImprovement
        fromCache := none }⟩,
   some newState, computed.2)

/-- The cache-hit response of `RouteService.optimizeRoute` (service.js lines
141–156). -/
def svcCachedResponse (driverId : ℕ) (orderCount : ℕ) (s : OptimizationState) :
    ServiceResponse :=
  ⟨true, "Route already optimized (use forceRecalculate=true to recalculate)",
   "المسار محسن بالفعل",
   some
     { driverId := driverId
       routeOptimized := true
       totalOrders := orderCount
       optimizedSequence := none
       optimizedAt := some s.optimizedAt
       estimatedDuration := some s.estimatedDuration
       estimatedDistance := some s.estimatedDistance
       optimizationMethod := none
       includeTraffic := none
       realDistanceCalculated := none
       estimatedImprovement := none
       fromCache := some true }⟩

/-- Embeds `RouteService.optimizeRoute(driverId, options)` (service.js lines 112–248)
over the driver's picked-up `orders` and the driver's stored optimization
`state`: empty order list fails; without `forceRecalculate` an already-optimized
state short-circuits to the cached response (no heuristic, no provider call);
otherwise the optimization is computed and persisted. -/
def svcOptimizeRoute (env : ProviderEnv) (driverId : ℕ) (orders : List Order)
    (state : Option OptimizationState) (opts : ServiceOptions) (now : ℕ) :
    ServiceResponse × Option OptimizationState × Effects :=
  if orders.isEmpty then
    (⟨false, "No picked up orders found for driver", "لا توجد طلبات محملة للسائق", none⟩,
     state, Effects.zero)
  else if opts.forceRecalculate then
    svcComputeOptimization env driverId orders opts now
  else
    match state with
    | some s =>
      if s.routeOptimized then
        (svcCachedResponse driverId orders.length s, some s, Effects.zero)
      else
        svcComputeOptimization env driverId orders opts now
    | none => svcComputeOptimization env driverId orders opts now

/-- Response of `clearRouteOptimization`. -/
structure ClearResponse where
  success : Bool
  message : String
  messageAr : String
deriving DecidableEq, Repr

/-- Embeds `RouteService.clearRouteOptimization(driverId)` (service.js lines 514–538)
on the driver's stored state: deleting an existing row reports success; the
Prisma `P2025` (record not found) error is converted into a distinct success
response. -/
def clearRouteOptimization (state : Option OptimizationState) :
    ClearResponse × Option OptimizationState :=
  match state with
  | some _ => (⟨true, "Route optimization cleared", "تم مسح تحسين المسار"⟩, none)
  | none => (⟨true, "No route optimization to clear", "لا يوجد تحسين مسار لمسحه"⟩, none)

/-- Runs `n` successive calls of `clearRouteOptimization` for one driver, collecting
all responses and the final state. -/
def clearCalls (state : Option OptimizationState) : ℕ → List ClearResponse × Option OptimizationState
  | 0 => ([], state)
  | n + 1 =>
    let r := clearCalls state n
    let c := clearRouteOptimization r.2
    (r.1 ++ [c.1], c.2)

/-! ### Supporting lemmas and concrete instances -/

/-- A provider environment that resolves nothing (used for cache-path and
priority-only scenarios that must not depend on the providers). -/
def trivEnv : ProviderEnv := ⟨fun _ => ⟨false, 0, 0⟩, fun _ _ => none⟩

/-- Options requesting neither traffic nor coordinates (the Priority-Only path). -/
def basicOptions : OptimizeOptions := ⟨none, false, false, none, none⟩

/-- Example orders of the spec: A(LOW, t=1), B(URGENT, t=2), C(NORMAL, t=3). -/
def orderA : Order := ⟨1, Priority.LOW, 1, "A", none⟩

def orderB : Order := ⟨2, Priority.URGENT, 2, "B", none⟩

def orderC : Order := ⟨3, Priority.NORMAL, 3, "C", none⟩

theorem sequenceStops_map_order (l : List Order) :
    (sequenceStops l).map SequencedStop.order = l := by
  unfold sequenceStops
  rw [List.map_map]
  show l.enum.map Prod.snd = l
  exact List.enum_map_snd l

/-- The Priority-Only branch emits exactly the stable priority/time sort. -/
theorem priorityBased_basic_sequence (env : ProviderEnv) (orders : List Order) :
    ((priorityBasedOptimization env orders basicOptions).1.optimizedSequence).map
        SequencedStop.order = jsSort priorityTimeLe orders := by
  unfold priorityBasedOptimization
  rw [if_neg (by simp [basicOptions])]
  simp only [formatOptimizationResult]
  exact sequenceStops_map_order _

/-- The cache-hit path of the service optimize call. -/
theorem svcOptimizeRoute_cached (env : ProviderEnv) (driverId : ℕ) (orders : List Order)
    (s : OptimizationState) (opts : ServiceOptions) (now : ℕ)
    (hOrders : orders ≠ []) (hOpt : s.routeOptimized = true)
    (hForce : opts.forceRecalculate = false) :
    svcOptimizeRoute env driverId orders (some s) opts now =
      (svcCachedResponse driverId orders.length s, some s, Effects.zero) := by
  cases orders with
  | nil => exact absurd rfl hOrders
  | cons o os => simp [svcOptimizeRoute, hForce, hOpt]

theorem distanceAttemptLe_total (a b : List Order × ℕ) :
    distanceAttemptLe a b = true ∨ distanceAttemptLe b a = true := by
  unfold distanceAttemptLe
  simp only [decide_eq_true_eq]
  omega

theorem distanceAttemptLe_trans (a b c : List Order × ℕ) (h1 : distanceAttemptLe a b = true)
    (h2 : distanceAttemptLe b c = true) : distanceAttemptLe a c = true := by
  unfold distanceAttemptLe at h1 h2 ⊢
  simp only [decide_eq_true_eq] at h1 h2 ⊢
  omega

theorem geneticAttempts_snd (orders : List Order) (distances : List DistanceEntry) :
    ∀ p ∈ geneticAttempts orders distances, p.2 = calculateRouteDistance p.1 distances := by
  intro p hp
  obtain ⟨params, -, hp2⟩ := List.mem_map.mp hp
  rw [← hp2]

theorem clearCalls_state_none (state : Option OptimizationState) :
    ∀ n, 1 ≤ n → (clearCalls state n).2 = none := by
  intro n hn
  cases n with
  | zero => omega
  | succ n =>
    simp only [clearCalls]
    cases (clearCalls state n).2 <;> simp [clearRouteOptimization]

theorem clearCalls_all_success (state : Option OptimizationState) :
    ∀ n, ∀ r ∈ (clearCalls state n).1, r.success = true := by
  intro n
  induction n with
  | zero =>
    intro r hr
    simp [clearCalls] at hr
  | succ n ih =>
    intro r hr
    simp only [clearCalls, List.mem_append] at hr
    rcases hr with hr | hr
    · exact ih r hr
    · have hr2 : r = (clearRouteOptimization (clearCalls state n).2).1 := by simpa using hr
      rw [hr2]
      cases (clearCalls state n).2 <;> simp [clearRouteOptimization]

/-- Cache-hit characterization of `geocodeAddress`. -/
theorem geocodeAddress_hit (provider : String → ProviderResponse) (store : GeoStore)
    (a : String) (e : GeoCacheEntry) (h : store (createAddressHash a) = some e) :
    geocodeAddress provider store a =
      (⟨e.latitude, e.longitude, e.formattedAddress, e.isValid, e.isGeocoded, none⟩, store, 0) := by
  unfold geocodeAddress
  rw [h]

/-- Cache-miss characterization of `geocodeAddress` for a resolvable address. -/
theorem geocodeAddress_miss_ok (provider : String → ProviderResponse) (store : GeoStore)
    (a : String) (lat lng : ℚ) (fmt : String)
    (hmiss : store (createAddressHash a) = none)
    (hp : provider a = ProviderResponse.ok lat lng fmt) :
    geocodeAddress provider store a =
      (⟨some lat, some lng, fmt, true, true, none⟩,
       geoStoreUpsert store ⟨createAddressHash a, a, fmt, some lat, some lng, true, true⟩, 1) := by
  unfold geocodeAddress
  rw [hmiss, hp]

/-- Cache-miss characterization of `geocodeAddress` for an unresolvable address. -/
theorem geocodeAddress_miss_noMatch (provider : String → ProviderResponse) (store : GeoStore)
    (a : String) (status : String)
    (hmiss : store (createAddressHash a) = none)
    (hp : provider a = ProviderResponse.noMatch status) :
    geocodeAddress provider store a =
      (⟨none, none, a, false, false, some status⟩,
       geoStoreUpsert store ⟨createAddressHash a, a, a, none, none, false, false⟩, 1) := by
  unfold geocodeAddress
  rw [hmiss, hp]

theorem geoStoreUpsert_self (store : GeoStore) (e : GeoCacheEntry) :
    geoStoreUpsert store e e.addressHash = some e := by
  unfold geoStoreUpsert
  rw [if_pos rfl]

/-- The provider of the C7 counterexample: every address is unresolvable. -/
def cexProvider : String → ProviderResponse := fun _ => ProviderResponse.noMatch ("ZERO_RESULTS")

def emptyGeoStore : GeoStore := fun _ => none

/-- A provider resolving every address to a fixed location (C7 witness). -/
def okProvider : String → ProviderResponse := fun _ => ProviderResponse.ok 30 31 ("Cairo, Egypt")

/-! #### The concrete C9 scenario: four NORMAL-priority geocoded orders with a
full distance matrix whose traffic-aware durations make the heuristic reorder
the stops. -/

def c9Order (i : ℕ) : Order := ⟨i, Priority.NORMAL, i, "", some ⟨1, 1⟩⟩

def c9Orders : List Order := [c9Order 1, c9Order 2, c9Order 3, c9Order 4]

/-- Traffic-aware durations (seconds) by matrix indices. -/
def c9Dur (i j : ℕ) : ℕ :=
  match i, j with
  | 0, 1 => 1200
  | 0, 2 => 600
  | 0, 3 => 1800
  | 1, 2 => 600
  | 1, 3 => 600
  | 2, 1 => 600
  | 2, 3 => 1200
  | _, _ => 5000

def c9Env : ProviderEnv :=
  ⟨fun _ => ⟨false, 0, 0⟩,
   fun i j => if i < 4 ∧ j < 4 then some ⟨1000, c9Dur i j, some (c9Dur i j)⟩ else none⟩

def c9Opts : OptimizeOptions := ⟨some Algorithm.hybrid, false, false, none, none⟩

def c9Entry (i j : ℕ) : DistanceEntry :=
  ⟨i + 1, j + 1, "", "", 1000, c9Dur i j, c9Dur i j, i, j⟩

def c9Dists : List DistanceEntry :=
  [c9Entry 0 1, c9Entry 0 2, c9Entry 0 3,
   c9Entry 1 0, c9Entry 1 2, c9Entry 1 3,
   c9Entry 2 0, c9Entry 2 1, c9Entry 2 3,
   c9Entry 3 0, c9Entry 3 1, c9Entry 3 2]

def c9Points : List DeliveryPoint :=
  [⟨1, 1, 1, ""⟩, ⟨2, 1, 1, ""⟩, ⟨3, 1, 1, ""⟩, ⟨4, 1, 1, ""⟩]

theorem c9_geocode_eval : geocodeOrders c9Env c9Orders = (c9Orders, Effects.zero) := by
  decide

theorem c9_fb1 :
    findBest (3 / 10 : ℚ) (7 / 10) c9Dists (c9Order 1) [c9Order 2, c9Order 3, c9Order 4] =
      some (c9Order 3) := by
  have e12 : findEdge c9Dists 1 2 = some (c9Entry 0 1) := by decide
  have e13 : findEdge c9Dists 1 3 = some (c9Entry 0 2) := by decide
  have e14 : findEdge c9Dists 1 4 = some (c9Entry 0 3) := by decide
  simp only [findBest, findBestPair, bestStep, c9Order, e12, e13, e14]
  norm_num [score, c9Entry, c9Dur, priorityValue]

theorem c9_fb2 :
    findBest (3 / 10 : ℚ) (7 / 10) c9Dists (c9Order 3) [c9Order 2, c9Order 4] =
      some (c9Order 2) := by
  have e32 : findEdge c9Dists 3 2 = some (c9Entry 2 1) := by decide
  have e34 : findEdge c9Dists 3 4 = some (c9Entry 2 3) := by decide
  simp only [findBest, findBestPair, bestStep, c9Order, e32, e34]
  norm_num [score, c9Entry, c9Dur, priorityValue]

theorem c9_fb3 :
    findBest (3 / 10 : ℚ) (7 / 10) c9Dists (c9Order 2) [c9Order 4] =
      some (c9Order 4) := by
  have e24 : findEdge c9Dists 2 4 = some (c9Entry 1 3) := by decide
  simp only [findBest, findBestPair, bestStep, c9Order, e24]
  rfl

theorem c9_route :
    nearestNeighborWithPriority c9Orders c9Dists (3 / 10) (7 / 10) =
      [c9Order 1, c9Order 3, c9Order 2, c9Order 4] := by
  unfold nearestNeighborWithPriority
  rw [show sortByPriorityDesc c9Orders =
    c9Order 1 :: [c9Order 2, c9Order 3, c9Order 4] from by decide]
  show c9Order 1 :: nnLoop (3 / 10) (7 / 10) c9Dists (2 + 1) (c9Order 1)
    [c9Order 2, c9Order 3, c9Order 4] = _
  rw [show nnLoop (3 / 10) (7 / 10) c9Dists (2 + 1) (c9Order 1)
      [c9Order 2, c9Order 3, c9Order 4] =
    c9Order 3 :: nnLoop (3 / 10) (7 / 10) c9Dists 2 (c9Order 3)
      ([c9Order 2, c9Order 3, c9Order 4].erase (c9Order 3)) from by
    simp only [nnLoop, List.isEmpty_cons, Bool.false_eq_true, if_false, c9_fb1]]
  rw [show [c9Order 2, c9Order 3, c9Order 4].erase (c9Order 3) =
    [c9Order 2, c9Order 4] from by decide]
  show _ :: c9Order 3 :: nnLoop (3 / 10) (7 / 10) c9Dists (1 + 1) (c9Order 3)
    [c9Order 2, c9Order 4] = _
  rw [show nnLoop (3 / 10) (7 / 10) c9Dists (1 + 1) (c9Order 3) [c9Order 2, c9Order 4] =
    c9Order 2 :: nnLoop (3 / 10) (7 / 10) c9Dists 1 (c9Order 2)
      ([c9Order 2, c9Order 4].erase (c9Order 2)) from by
    simp only [nnLoop, List.isEmpty_cons, Bool.false_eq_true, if_false, c9_fb2]]
  rw [show [c9Order 2, c9Order 4].erase (c9Order 2) = [c9Order 4] from by decide]
  show _ :: _ :: c9Order 2 :: nnLoop (3 / 10) (7 / 10) c9Dists (0 + 1) (c9Order 2)
    [c9Order 4] = _
  rw [show nnLoop (3 / 10) (7 / 10) c9Dists (0 + 1) (c9Order 2) [c9Order 4] =
    c9Order 4 :: nnLoop (3 / 10) (7 / 10) c9Dists 0 (c9Order 4)
      ([c9Order 4].erase (c9Order 4)) from by
    simp only [nnLoop, List.isEmpty_cons, Bool.false_eq_true, if_false, c9_fb3]]
  simp [nnLoop]

/-- Full evaluation of the nearest-neighbor optimization on the C9 scenario. -/
theorem c9_nn_eval :
    nearestNeighborOptimization c9Env c9Orders c9Opts =
      (formatOptimizationResult [c9Order 1, c9Order 3, c9Order 2, c9Order 4]
        ⟨"nearest_neighbor", false, "25-40%", some ⟨c9Dists, 4⟩⟩,
       Effects.add Effects.zero (Effects.add Effects.oneDistanceMatrix Effects.oneHeuristic)) := by
  have hpts : toDeliveryPoints c9Orders = c9Points := by decide
  have hdd : calculateDeliveryDistances c9Env c9Points =
      (⟨c9Dists, 4⟩, Effects.oneDistanceMatrix) := by decide
  have hw1 : c9Opts.priorityWeight.getD defaultPriorityWeight = 3 / 10 := rfl
  have hw2 : c9Opts.distanceWeight.getD defaultDistanceWeight = 7 / 10 := rfl
  simp only [nearestNeighborOptimization, c9_geocode_eval, hpts, hdd, hw1, hw2, c9_route]
  rw [if_neg (by decide)]
  rfl

/-! ### The claims -/

/-- C1: for every driver whose stored `OptimizationState` has
`routeOptimized = true`, a call to optimize with `forceRecalculate = false` and
the driver's picked-up orders returns the cached response with
`fromCache = true`, a second such call returns a byte-identical response,
neither call changes the stored state, and neither call invokes a heuristic or
any external provider (geocode, distance matrix, directions). -/
theorem claim_C1 (env1 env2 : ProviderEnv) (driverId : ℕ) (orders : List Order)
    (s : OptimizationState) (opts : ServiceOptions) (now1 now2 : ℕ)
    (hOrders : orders ≠ []) (hOpt : s.routeOptimized = true)
    (hForce : opts.forceRecalculate = false) :
    (∃ d, (svcOptimizeRoute env1 driverId orders (some s) opts now1).1.data = some d ∧
      d.fromCache = some true) ∧
    (svcOptimizeRoute env2 driverId orders
        (svcOptimizeRoute env1 driverId orders (some s) opts now1).2.1 opts now2).1 =
      (svcOptimizeRoute env1 driverId orders (some s) opts now1).1 ∧
    (svcOptimizeRoute env1 driverId orders (some s) opts now1).2.1 = some s ∧
    (svcOptimizeRoute env1 driverId orders (some s) opts now1).2.2 = Effects.zero ∧
    (svcOptimizeRoute env2 driverId orders
        (svcOptimizeRoute env1 driverId orders (some s) opts now1).2.1 opts now2).2.2 =
      Effects.zero := by
  have h1 := svcOptimizeRoute_cached env1 driverId orders s opts now1 hOrders hOpt hForce
  have h2 := svcOptimizeRoute_cached env2 driverId orders s opts now2 hOrders hOpt hForce
  rw [h1]
  rw [h2]
  exact ⟨⟨_, rfl, rfl⟩, rfl, rfl, rfl, rfl⟩

/-- Concrete instance of C1 at a driver with one picked-up order and an
already-optimized state. -/
def wState : OptimizationState :=
  ⟨true, 5, "15 minutes", "5 km", "PRIORITY_BASED", false, true, false, false, 1⟩

def wServiceOpts : ServiceOptions := ⟨false, false, none, true⟩

theorem claim_C1_witness :
    (∃ d, (svcOptimizeRoute trivEnv 7 [orderA] (some wState) wServiceOpts 100).1.data = some d ∧
      d.fromCache = some true) ∧
    (svcOptimizeRoute trivEnv 7 [orderA]
        (svcOptimizeRoute trivEnv 7 [orderA] (some wState) wServiceOpts 100).2.1
        wServiceOpts 200).1 =
      (svcOptimizeRoute trivEnv 7 [orderA] (some wState) wServiceOpts 100).1 ∧
    (svcOptimizeRoute trivEnv 7 [orderA] (some wState) wServiceOpts 100).2.1 = some wState ∧
    (svcOptimizeRoute trivEnv 7 [orderA] (some wState) wServiceOpts 100).2.2 = Effects.zero ∧
    (svcOptimizeRoute trivEnv 7 [orderA]
        (svcOptimizeRoute trivEnv 7 [orderA] (some wState) wServiceOpts 100).2.1
        wServiceOpts 200).2.2 = Effects.zero :=
  claim_C1 trivEnv trivEnv 7 [orderA] wState wServiceOpts 100 200 (by decide) rfl rfl

/-- C2: with no forced algorithm, the selector is a pure function of order
count: 2–3 ⇒ Priority-Only, 4–10 ⇒ Priority-Weighted-Nearest-Neighbor, 11–25 ⇒
Multi-Start-Nearest-Neighbor (in particular at 2, 7 and 15); above 25 the
selected `or_tools` path runs the same routine as 11–25 (the genetic /
multi-start routine); a caller-named non-hybrid algorithm overrides the size
table. -/
theorem claim_C2 :
    (∀ n, 2 ≤ n → n ≤ 3 → selectOptimalAlgorithm n none = Algorithm.priorityBased) ∧
    (∀ n, 4 ≤ n → n ≤ 10 → selectOptimalAlgorithm n none = Algorithm.nearestNeighbor) ∧
    (∀ n, 11 ≤ n → n ≤ 25 → selectOptimalAlgorithm n none = Algorithm.genetic) ∧
    selectOptimalAlgorithm 2 none = Algorithm.priorityBased ∧
    selectOptimalAlgorithm 7 none = Algorithm.nearestNeighbor ∧
    selectOptimalAlgorithm 15 none = Algorithm.genetic ∧
    (∀ n, 25 < n → selectOptimalAlgorithm n none = Algorithm.orTools) ∧
    (∀ env orders opts, runAlgorithm env Algorithm.orTools orders opts =
      runAlgorithm env Algorithm.genetic orders opts) ∧
    (∀ n, selectOptimalAlgorithm n (some Algorithm.hybrid) = selectOptimalAlgorithm n none) ∧
    (∀ a, a ≠ Algorithm.hybrid → ∀ n, selectOptimalAlgorithm n (some a) = a) := by
  refine ⟨?_, ?_, ?_, by decide, by decide, by decide, ?_, ?_, ?_, ?_⟩
  · intro n h1 h2
    unfold selectOptimalAlgorithm
    rw [if_pos (by omega)]
  · intro n h1 h2
    unfold selectOptimalAlgorithm
    rw [if_neg (by omega), if_pos (by omega)]
  · intro n h1 h2
    unfold selectOptimalAlgorithm
    rw [if_neg (by omega), if_neg (by omega), if_pos (by omega)]
  · intro n h1
    unfold selectOptimalAlgorithm
    rw [if_neg (by omega), if_neg (by omega), if_neg (by omega)]
  · intro env orders opts
    rfl
  · intro n
    rfl
  · intro a ha n
    unfold selectOptimalAlgorithm
    simp only []
    rw [if_neg ha]

theorem claim_C2_witness :
    selectOptimalAlgorithm 2 none = Algorithm.priorityBased ∧
    selectOptimalAlgorithm 7 none = Algorithm.nearestNeighbor ∧
    selectOptimalAlgorithm 15 none = Algorithm.genetic ∧
    selectOptimalAlgorithm 30 none = Algorithm.orTools ∧
    selectOptimalAlgorithm 30 (some Algorithm.priorityBased) = Algorithm.priorityBased := by
  obtain ⟨h1, h2, h3, -, -, -, h7, -, -, h10⟩ := claim_C2
  exact ⟨h1 2 (by decide) (by decide), h2 7 (by decide) (by decide),
    h3 15 (by decide) (by decide), h7 30 (by decide), h10 Algorithm.priorityBased (by decide) 30⟩

/-- C3: Priority-Only optimization returns the orders stably sorted by priority
rank descending (URGENT=4 … LOW=1), ties broken by creation time ascending: the
emitted sequence is a permutation of the input, pairwise ordered accordingly,
and elements with identical priority rank and creation time keep their input
order; in particular A(LOW, t=1), B(URGENT, t=2), C(NORMAL, t=3) comes out as
[B, C, A]. -/
theorem claim_C3 :
    (∀ (env : ProviderEnv) (orders : List Order),
      List.Perm
        (((priorityBasedOptimization env orders basicOptions).1.optimizedSequence).map
          SequencedStop.order) orders ∧
      (((priorityBasedOptimization env orders basicOptions).1.optimizedSequence).map
          SequencedStop.order).Pairwise
        (fun a b => priorityValue b.priority < priorityValue a.priority ∨
          (priorityValue a.priority = priorityValue b.priority ∧ a.createdAt ≤ b.createdAt)) ∧
      (∀ pv t : ℕ,
        (((priorityBasedOptimization env orders basicOptions).1.optimizedSequence).map
            SequencedStop.order).filter
          (fun o => decide (priorityValue o.priority = pv) && decide (o.createdAt = t)) =
        orders.filter
          (fun o => decide (priorityValue o.priority = pv) && decide (o.createdAt = t)))) ∧
    ((priorityBasedOptimization trivEnv [orderA, orderB, orderC] basicOptions).1.optimizedSequence).map
        SequencedStop.order = [orderB, orderC, orderA] := by
  constructor
  · intro env orders
    rw [priorityBased_basic_sequence]
    refine ⟨jsSort_perm priorityTimeLe orders, ?_, ?_⟩
    · have hpw := jsSort_pairwise priorityTimeLe priorityTimeLe_total priorityTimeLe_trans orders
      refine hpw.imp ?_
      intro a b hab
      rw [priorityTimeLe_iff] at hab
      exact hab
    · intro pv t
      refine jsSort_filter priorityTimeLe _ ?_ orders
      intro x y hx hy
      simp only [Bool.and_eq_true, decide_eq_true_eq] at hx hy
      rw [priorityTimeLe_iff]
      right
      constructor
      · rw [hx.1, hy.1]
      · rw [hx.2, hy.2]
  · rw [priorityBased_basic_sequence]
    decide

/-- C4: the priority-weighted nearest-neighbor heuristic at its default weights
(distanceWeight 0.7, priorityWeight 0.3) starts at a highest-priority order, and
at every step where some unvisited candidate has distance data it appends a
candidate with distance data minimizing
`score = distanceWeight * (trafficSeconds/3600) + priorityWeight * ((5 - priorityValue)/4)`. -/
theorem claim_C4 (orders : List Order) (dists : List DistanceEntry) :
    defaultPriorityWeight = 3 / 10 ∧ defaultDistanceWeight = 7 / 10 ∧
    (∀ hd,
      (nearestNeighborWithPriority orders dists defaultPriorityWeight
          defaultDistanceWeight).head? = some hd →
      hd ∈ orders ∧ ∀ x ∈ orders, priorityValue x.priority ≤ priorityValue hd.priority) ∧
    (∀ e cand, score defaultPriorityWeight defaultDistanceWeight e cand =
      defaultDistanceWeight * ((e.durationInTrafficSeconds : ℚ) / 3600) +
        defaultPriorityWeight * ((5 - (priorityValue cand.priority : ℚ)) / 4)) ∧
    MinScoreSteps defaultPriorityWeight defaultDistanceWeight dists
      (nearestNeighborWithPriority orders dists defaultPriorityWeight defaultDistanceWeight) :=
  ⟨rfl, rfl,
   fun hd hhd => nearestNeighborWithPriority_head orders dists _ _ hd hhd,
   fun _ _ => rfl,
   nearestNeighborWithPriority_minScoreSteps orders dists _ _⟩

theorem claim_C4_witness :
    orderB ∈ [orderA, orderB] ∧
    ∀ x ∈ [orderA, orderB], priorityValue x.priority ≤ priorityValue orderB.priority :=
  (claim_C4 [orderA, orderB] []).2.2.1 orderB (by decide)

/-- C5: for every order list and every (possibly partial, possibly empty)
distance list and any weights, the heuristic terminates with a sequence that is
a permutation of the input (each order exactly once), and at any step where no
remaining candidate has distance data from the current order, a
highest-priority remaining order is appended. -/
theorem claim_C5 (orders : List Order) (dists : List DistanceEntry) (pw dw : ℚ) :
    List.Perm (nearestNeighborWithPriority orders dists pw dw) orders ∧
    PriorityFallbackSteps dists (nearestNeighborWithPriority orders dists pw dw) :=
  ⟨nearestNeighborWithPriority_perm orders dists pw dw,
   nearestNeighborWithPriority_fallbackSteps orders dists pw dw⟩

theorem claim_C5_witness :
    List.Perm (nearestNeighborWithPriority [orderA, orderB, orderC] [] (1 / 2) (1 / 2))
      [orderA, orderB, orderC] :=
  (claim_C5 [orderA, orderB, orderC] [] (1 / 2) (1 / 2)).1

/-- C6: the multi-start routine runs the weighted nearest-neighbor heuristic
exactly four times with the fixed (priorityWeight, distanceWeight) pairs
(0.2, 0.8), (0.3, 0.7), (0.4, 0.6), (0.5, 0.5), scores each candidate by
`calculateRouteDistance` (the sum of traffic-aware durations along consecutive
edges), and returns a candidate of minimal total traversal cost. -/
theorem geneticSelectBest_spec (orders : List Order) (distances : List DistanceEntry) :
    geneticSelectBest orders distances ∈ (geneticAttempts orders distances).map Prod.fst ∧
    ∀ route ∈ (geneticAttempts orders distances).map Prod.fst,
      calculateRouteDistance (geneticSelectBest orders distances) distances ≤
        calculateRouteDistance route distances := by
  cases hsort : jsSort distanceAttemptLe (geneticAttempts orders distances) with
  | nil =>
    exfalso
    have hperm := jsSort_perm distanceAttemptLe (geneticAttempts orders distances)
    rw [hsort] at hperm
    have hlen := hperm.length_eq
    simp [geneticAttempts, geneticParameterSets] at hlen
  | cons best t =>
    have hbest : geneticSelectBest orders distances = best.1 := by
      unfold geneticSelectBest
      rw [hsort]
    have hperm := jsSort_perm distanceAttemptLe (geneticAttempts orders distances)
    rw [hsort] at hperm
    have hmem : best ∈ geneticAttempts orders distances :=
      hperm.mem_iff.mp (List.mem_cons_self best t)
    refine ⟨hbest ▸ List.mem_map_of_mem Prod.fst hmem, ?_⟩
    intro route hroute
    obtain ⟨pair, hpair, hpair2⟩ := List.mem_map.mp hroute
    have hle := jsSort_head_le distanceAttemptLe distanceAttemptLe_total
      distanceAttemptLe_trans (geneticAttempts orders distances) best t hsort pair hpair
    unfold distanceAttemptLe at hle
    have hle2 : best.2 ≤ pair.2 := of_decide_eq_true hle
    rw [geneticAttempts_snd orders distances best hmem,
      geneticAttempts_snd orders distances pair hpair] at hle2
    rw [hbest, ← hpair2]
    exact hle2

/-- C6: the multi-start routine runs the weighted nearest-neighbor heuristic
exactly four times with the fixed (priorityWeight, distanceWeight) pairs
(0.2, 0.8), (0.3, 0.7), (0.4, 0.6), (0.5, 0.5), scores each candidate by
`calculateRouteDistance` (the sum of traffic-aware durations along consecutive
edges), and returns a candidate of minimal total traversal cost. -/
theorem claim_C6 (orders : List Order) (distances : List DistanceEntry) :
    geneticParameterSets =
      [(2 / 10, 8 / 10), (3 / 10, 7 / 10), (4 / 10, 6 / 10), (5 / 10, 5 / 10)] ∧
    (geneticAttempts orders distances).map Prod.fst =
      geneticParameterSets.map
        (fun params => nearestNeighborWithPriority orders distances params.1 params.2) ∧
    ((geneticAttempts orders distances).map Prod.fst).length = 4 ∧
    geneticSelectBest orders distances ∈ (geneticAttempts orders distances).map Prod.fst ∧
    (∀ route ∈ (geneticAttempts orders distances).map Prod.fst,
      calculateRouteDistance (geneticSelectBest orders distances) distances ≤
        calculateRouteDistance route distances) :=
  ⟨rfl, by simp [geneticAttempts, List.map_map], rfl,
   (geneticSelectBest_spec orders distances).1, (geneticSelectBest_spec orders distances).2⟩

theorem claim_C6_witness :
    geneticSelectBest [orderA, orderB] [] ∈
      (geneticAttempts [orderA, orderB] []).map Prod.fst ∧
    calculateRouteDistance (geneticSelectBest [orderA, orderB] []) [] ≤
      calculateRouteDistance
        (nearestNeighborWithPriority [orderA, orderB] [] (2 / 10) (8 / 10)) [] := by
  obtain ⟨-, hmap, -, hmem, hmin⟩ := claim_C6 [orderA, orderB] []
  refine ⟨hmem, hmin _ ?_⟩
  rw [hmap]
  have hp : ((2 / 10 : ℚ), (8 / 10 : ℚ)) ∈ geneticParameterSets := by
    simp [geneticParameterSets]
  exact List.mem_map_of_mem _ hp

/-- C7 as stated is false for unresolvable addresses: resolving an unresolvable
address twice makes exactly one provider call, but the second (cached) result is
not bit-for-bit identical to the first — the first carries the provider error
status while the cached result has no `error` field. -/
theorem claim_C7_counterexample :
    (geocodeAddress cexProvider emptyGeoStore ("Atlantis")).2.2 +
      (geocodeAddress cexProvider
        (geocodeAddress cexProvider emptyGeoStore ("Atlantis")).2.1 ("Atlantis")).2.2 = 1 ∧
    (geocodeAddress cexProvider
        (geocodeAddress cexProvider emptyGeoStore ("Atlantis")).2.1 ("Atlantis")).1 ≠
      (geocodeAddress cexProvider emptyGeoStore ("Atlantis")).1 ∧
    (geocodeAddress cexProvider emptyGeoStore ("Atlantis")).1.error =
      some ("ZERO_RESULTS") ∧
    (geocodeAddress cexProvider
        (geocodeAddress cexProvider emptyGeoStore ("Atlantis")).2.1 ("Atlantis")).1.error =
      none := by
  rw [geocodeAddress_miss_noMatch cexProvider emptyGeoStore ("Atlantis") ("ZERO_RESULTS")
    rfl rfl]
  rw [geocodeAddress_hit cexProvider _ ("Atlantis") _ (geoStoreUpsert_self emptyGeoStore
    ⟨createAddressHash ("Atlantis"), "Atlantis", "Atlantis", none, none, false, false⟩)]
  refine ⟨rfl, ?_, rfl, rfl⟩
  intro h
  have herr := congrArg GeoResult.error h
  simp at herr

/-- C7 (amended): resolving two addresses that agree after lower-casing and
trimming — the cache key is a digest of the lower-cased trimmed address —
triggers exactly one provider call when the key is initially absent; the second
resolve agrees with the first on latitude, longitude, formatted address,
validity and geocoded flags; for resolvable addresses it is bit-for-bit
identical, while for unresolvable addresses the cached second result omits the
provider error status carried by the first. -/
theorem claim_C7 (provider : String → ProviderResponse) (store : GeoStore)
    (a1 a2 : String) (hnorm : a1.toLower.trim = a2.toLower.trim)
    (hmiss : store (createAddressHash a1) = none) :
    (geocodeAddress provider store a1).2.2 +
      (geocodeAddress provider (geocodeAddress provider store a1).2.1 a2).2.2 = 1 ∧
    (geocodeAddress provider (geocodeAddress provider store a1).2.1 a2).1.latitude =
      (geocodeAddress provider store a1).1.latitude ∧
    (geocodeAddress provider (geocodeAddress provider store a1).2.1 a2).1.longitude =
      (geocodeAddress provider store a1).1.longitude ∧
    (geocodeAddress provider (geocodeAddress provider store a1).2.1 a2).1.formattedAddress =
      (geocodeAddress provider store a1).1.formattedAddress ∧
    (geocodeAddress provider (geocodeAddress provider store a1).2.1 a2).1.isValid =
      (geocodeAddress provider store a1).1.isValid ∧
    (geocodeAddress provider (geocodeAddress provider store a1).2.1 a2).1.isGeocoded =
      (geocodeAddress provider store a1).1.isGeocoded ∧
    (geocodeAddress provider (geocodeAddress provider store a1).2.1 a2).1.error = none ∧
    ((geocodeAddress provider store a1).1.isValid = true →
      (geocodeAddress provider (geocodeAddress provider store a1).2.1 a2).1 =
        (geocodeAddress provider store a1).1) := by
  have hkey : createAddressHash a2 = createAddressHash a1 := by
    unfold createAddressHash
    rw [hnorm]
  cases hp : provider a1 with
  | ok lat lng fmt =>
    rw [geocodeAddress_miss_ok provider store a1 lat lng fmt hmiss hp]
    have hhit : geoStoreUpsert store
        ⟨createAddressHash a1, a1, fmt, some lat, some lng, true, true⟩
        (createAddressHash a2) =
        some ⟨createAddressHash a1, a1, fmt, some lat, some lng, true, true⟩ := by
      rw [hkey]
      exact geoStoreUpsert_self store _
    rw [geocodeAddress_hit provider _ a2 _ hhit]
    exact ⟨rfl, rfl, rfl, rfl, rfl, rfl, rfl, fun _ => rfl⟩
  | noMatch status =>
    rw [geocodeAddress_miss_noMatch provider store a1 status hmiss hp]
    have hhit : geoStoreUpsert store
        ⟨createAddressHash a1, a1, a1, none, none, false, false⟩
        (createAddressHash a2) =
        some ⟨createAddressHash a1, a1, a1, none, none, false, false⟩ := by
      rw [hkey]
      exact geoStoreUpsert_self store _
    rw [geocodeAddress_hit provider _ a2 _ hhit]
    refine ⟨rfl, rfl, rfl, rfl, rfl, rfl, rfl, ?_⟩
    intro hvalid
    simp at hvalid

theorem claim_C7_witness :
    (geocodeAddress okProvider emptyGeoStore ("Main St")).2.2 +
      (geocodeAddress okProvider
        (geocodeAddress okProvider emptyGeoStore ("Main St")).2.1 ("Main St")).2.2 = 1 ∧
    (geocodeAddress okProvider
        (geocodeAddress okProvider emptyGeoStore ("Main St")).2.1 ("Main St")).1.latitude =
      (geocodeAddress okProvider emptyGeoStore ("Main St")).1.latitude ∧
    (geocodeAddress okProvider
        (geocodeAddress okProvider emptyGeoStore ("Main St")).2.1 ("Main St")).1.longitude =
      (geocodeAddress okProvider emptyGeoStore ("Main St")).1.longitude ∧
    (geocodeAddress okProvider
        (geocodeAddress okProvider emptyGeoStore ("Main St")).2.1
          ("Main St")).1.formattedAddress =
      (geocodeAddress okProvider emptyGeoStore ("Main St")).1.formattedAddress ∧
    (geocodeAddress okProvider
        (geocodeAddress okProvider emptyGeoStore ("Main St")).2.1 ("Main St")).1.isValid =
      (geocodeAddress okProvider emptyGeoStore ("Main St")).1.isValid ∧
    (geocodeAddress okProvider
        (geocodeAddress okProvider emptyGeoStore ("Main St")).2.1 ("Main St")).1.isGeocoded =
      (geocodeAddress okProvider emptyGeoStore ("Main St")).1.isGeocoded ∧
    (geocodeAddress okProvider
        (geocodeAddress okProvider emptyGeoStore ("Main St")).2.1 ("Main St")).1.error =
      none ∧
    ((geocodeAddress okProvider emptyGeoStore ("Main St")).1.isValid = true →
      (geocodeAddress okProvider
          (geocodeAddress okProvider emptyGeoStore ("Main St")).2.1 ("Main St")).1 =
        (geocodeAddress okProvider emptyGeoStore ("Main St")).1) :=
  claim_C7 okProvider emptyGeoStore ("Main St") ("Main St") rfl rfl

/-- C8: for a single order, `optimizeRoute` short-circuits to
`createSingleOrderRoute`, whose sequence is the one stop with
`sequenceNumber = 1`, and the aggregate travel distance along that one-stop
sequence (as the code itself aggregates it, `calculateRouteDistance`) is zero
for every distance list. -/
theorem claim_C8 (o : Order) (env : ProviderEnv) (opts : OptimizeOptions)
    (dists : List DistanceEntry) :
    optimizerOptimizeRoute env [o] opts = some (createSingleOrderRoute o, Effects.zero) ∧
    (createSingleOrderRoute o).optimizedSequence.map
        (fun stop => (stop.order, stop.sequenceNumber)) = [(o, 1)] ∧
    calculateRouteDistance
      ((createSingleOrderRoute o).optimizedSequence.map SequencedStop.order) dists = 0 :=
  ⟨rfl, rfl, rfl⟩

/-- C9 (failing input): four NORMAL-priority geocoded orders with a full
distance matrix.  The selector picks the nearest-neighbor heuristic (not the
multi-start routine) and the emitted sequence is [1, 3, 2, 4]; but the reported
total duration is "50m" — `calculateRouteTotals` looks edges up by sequence
positions against matrix indices of the original point order — while the sum of
the traffic-aware durations along the emitted sequence is "30m". -/
theorem claim_C9 :
    selectOptimalAlgorithm 4 (some Algorithm.hybrid) = Algorithm.nearestNeighbor ∧
    optimizerOptimizeRoute c9Env c9Orders c9Opts =
      some (nearestNeighborOptimization c9Env c9Orders c9Opts) ∧
    ((nearestNeighborOptimization c9Env c9Orders c9Opts).1.optimizedSequence.map
      fun s => s.order.id) = [1, 3, 2, 4] ∧
    (nearestNeighborOptimization c9Env c9Orders c9Opts).1.estimatedDuration = "50m" ∧
    formatDuration
      (calculateRouteDistance
        ((nearestNeighborOptimization c9Env c9Orders c9Opts).1.optimizedSequence.map
          SequencedStop.order) c9Dists) = "30m" := by
  refine ⟨by decide, ?_, ?_, ?_, ?_⟩
  · show some (runAlgorithm c9Env (selectOptimalAlgorithm c9Orders.length c9Opts.algorithm)
      c9Orders c9Opts) = _
    rw [show selectOptimalAlgorithm c9Orders.length c9Opts.algorithm =
      Algorithm.nearestNeighbor from by decide]
    rfl
  · rw [c9_nn_eval]
    decide
  · rw [c9_nn_eval]
    decide
  · rw [c9_nn_eval]
    decide

/-- C10: clearing the route optimization state succeeds both when a state row
exists and when none does (with a distinct message in the latter case), leaves
no state row, and iterating clear any number of times keeps reporting success
with no remaining row. -/
theorem claim_C10 (state : Option OptimizationState) :
    (clearRouteOptimization state).1.success = true ∧
    (clearRouteOptimization state).2 = none ∧
    (state = none →
      (clearRouteOptimization state).1.message = "No route optimization to clear") ∧
    (state ≠ none →
      (clearRouteOptimization state).1.message = "Route optimization cleared") ∧
    "No route optimization to clear" ≠ "Route optimization cleared" ∧
    (∀ n, 1 ≤ n → (clearCalls state n).2 = none) ∧
    (∀ n, ∀ r ∈ (clearCalls state n).1, r.success = true) := by
  refine ⟨?_, ?_, ?_, ?_, by decide, clearCalls_state_none state, clearCalls_all_success state⟩
  · cases state <;> rfl
  · cases state <;> rfl
  · intro h
    rw [h]
    rfl
  · intro h
    cases state with
    | none => exact absurd rfl h
    | some s => rfl

theorem claim_C10_witness :
    (clearRouteOptimization (none : Option OptimizationState)).1.success = true ∧
    (clearRouteOptimization (none : Option OptimizationState)).1.message =
      "No route optimization to clear" ∧
    (clearCalls (none : Option OptimizationState) 3).2 = none ∧
    (clearRouteOptimization (some wState)).1.success = true :=
  ⟨(claim_C10 none).1, (claim_C10 none).2.2.1 rfl,
   (claim_C10 none).2.2.2.2.2.1 3 (by decide), (claim_C10 (some wState)).1⟩

end Grad
